import Mathlib

/-!
SandAutomata: the update engine of `src/main.c`

A shallow embedding of the falling-sand cellular automaton.  The C program keeps
one array `currState` of `CellData`, indexed by `col * WORKING_WIDTH + row`, where
`row` is the horizontal coordinate and `col` the vertical level (level `0` is the
top of the screen).  Here the array is a function from indices to cells, every
`int` of the program is an `Int`, the sentinel `-1` stays `-1`, and the unsigned
32-bit `frameCounter` is a `Nat` whose arithmetic is reduced modulo `2 ^ 32`
where the program's is.

The functions take the grid dimensions `W` and `H` as arguments; the program
runs them at `W = WORKING_WIDTH = 416` and `H = WORKING_HEIGHT = 234`.  The
macros `WORKING_WIDTH` and `WORKING_HEIGHT` are unparenthesised quotients; every
expression of the update tick in which they occur (`col * WORKING_WIDTH + row`,
`pos + WORKING_WIDTH`, `row < WORKING_WIDTH - 1`, `(col + 1) < WORKING_HEIGHT`,
`i < TOTAL_WORKING_PIXELS`) has, on the cells of the grid, the value it has
with `416` and `234` in their place, since `1664` and `936` are multiples of `4`.

The loops are folds over the sequence of values of the loop variable, the body
of the inner loop is `cellStep`, and the `switch` that picks the destination is
`chooseDest`.
-/

namespace SandAutomata

/-! ## Constants (main.c, lines 9-15) -/

def SCREEN_WIDTH : Nat := 1664
def SCREEN_HEIGHT : Nat := 936
def PIXEL_SIZE : Nat := 4

def WORKING_WIDTH : Nat := SCREEN_WIDTH / PIXEL_SIZE
def WORKING_HEIGHT : Nat := SCREEN_HEIGHT / PIXEL_SIZE

/-! ## Data model (main.c, lines 17-29) -/

/-- The C enum `BlockType`: an integer; the enumerators are the values `0 .. 5`. -/
abbrev BlockType := Nat

abbrev BLOCK_AIR : BlockType := 0
abbrev BLOCK_SAND : BlockType := 1
abbrev BLOCK_WATER : BlockType := 2
abbrev BLOCK_WOOD : BlockType := 3
abbrev BLOCK_ACID : BlockType := 4
/-- The C struct `CellData`. -/
structure CellData where
  type : BlockType
  processed : Bool
deriving DecidableEq, Repr

/-- The array `currState`, as a map from index to cell.  Only the indices
`0 ≤ i < W * H` are cells of the grid. -/
abbrev Grid := Int → CellData

/-- The function `IsLiquid` (main.c, lines 44-46). -/
def IsLiquid (block : BlockType) : Bool :=
  block == BLOCK_WATER || block == BLOCK_ACID

/-! ## Slide search (main.c, lines 48-63) -/

/-- The `for` loop of `TrySlide`: `n` is the number of iterations still allowed,
`currentRow` the value of the variable on entry to the iteration. -/
def TrySlideLoop (W : Nat) (col dir : Int) (state : Grid) : Nat → Int → Int
  | 0, _ => -1
  | n + 1, currentRow =>
    let currentRow := currentRow + dir
    if currentRow < 0 ∨ currentRow ≥ W then -1
    else
      let pos := col * W + currentRow
      if !IsLiquid (state pos).type then
        if (state pos).type = BLOCK_AIR then pos else -1
      else TrySlideLoop W col dir state n currentRow

/-- The function `TrySlide`: at most 8 steps (`steps = 1 .. 8`). -/
def TrySlide (W : Nat) (startRow col dir : Int) (state : Grid) : Int :=
  TrySlideLoop W col dir state 8 startRow

/-! ## One update tick (main.c, lines 99-175) -/

/-- The reset loop (lines 100-101): `currState[i].processed = false` for
`i = 0 .. W * H - 1`. -/
def resetProcessed (W H : Nat) (currState : Grid) : Grid :=
  (List.range (W * H)).foldl
    (fun (s : Grid) (i : Nat) => Function.update s (i : Int) ⟨(s (i : Int)).type, false⟩)
    currState

/-- The statement `currState[i].processed = true`. -/
def setProcessed (currState : Grid) (i : Int) : Grid :=
  Function.update currState i ⟨(currState i).type, true⟩

/-- The variable `under` (line 115) for the cell at `(row, col)`. -/
def under (W H : Nat) (row col : Int) : Int :=
  if col + 1 < H then (col * W + row) + W else -1

/-- The variable `underLeft` (line 118). -/
def underLeft (W H : Nat) (row col : Int) : Int :=
  if under W H row col ≠ -1 ∧ row > 0 then under W H row col - 1 else -1

/-- The variable `underRight` (line 119). -/
def underRight (W H : Nat) (row col : Int) : Int :=
  if under W H row col ≠ -1 ∧ row < (W : Int) - 1 then under W H row col + 1 else -1

/-- The test `((row + col + frameCounter) & 1) == 0` (line 137); the sum is
unsigned 32-bit arithmetic. -/
def preferLeft (frameCounter : Nat) (row col : Int) : Bool :=
  ((row + col + (frameCounter : Int)) % 4294967296) % 2 == 0

/-- The destination chosen for the cell at `(row, col)` (lines 121-162): the
`switch` on the material.  `-1` is "no destination".  (The variables `left` and
`right` of lines 116-117 are never read.) -/
def chooseDest (W H : Nat) (frameCounter : Nat) (row col : Int) (currState : Grid) : Int :=
  let pos : Int := col * W + row
  let type := (currState pos).type
  let under := under W H row col
  let underLeft := underLeft W H row col
  let underRight := underRight W H row col
  if type = BLOCK_SAND then
    if under ≠ -1 ∧
        ((currState under).type = BLOCK_AIR ∨ IsLiquid (currState under).type) then under
    else if underLeft ≠ -1 ∧
        ((currState underLeft).type = BLOCK_AIR ∨ IsLiquid (currState underLeft).type) then
      underLeft
    else if underRight ≠ -1 ∧
        ((currState underRight).type = BLOCK_AIR ∨ IsLiquid (currState underRight).type) then
      underRight
    else -1
  else if type = BLOCK_WATER ∨ type = BLOCK_ACID then
    if under ≠ -1 ∧ (currState under).type = BLOCK_AIR then under
    else
      let preferLeft := preferLeft frameCounter row col
      let dest : Int :=
        if preferLeft then
          if underLeft ≠ -1 ∧ (currState underLeft).type = BLOCK_AIR then underLeft
          else if underRight ≠ -1 ∧ (currState underRight).type = BLOCK_AIR then underRight
          else -1
        else
          if underRight ≠ -1 ∧ (currState underRight).type = BLOCK_AIR then underRight
          else if underLeft ≠ -1 ∧ (currState underLeft).type = BLOCK_AIR then underLeft
          else -1
      if dest = -1 then
        let slideDirFirst : Int := if preferLeft then -1 else 1
        let slideDirSecond : Int := -slideDirFirst
        let dest := TrySlide W row col slideDirFirst currState
        if dest = -1 then TrySlide W row col slideDirSecond currState else dest
      else dest
  else -1

/-- The move (lines 164-172): the cells at `pos` and `dest` are exchanged and
both are marked processed. -/
def applyMove (currState : Grid) (pos dest : Int) : Grid :=
  let oldDest := currState dest
  let s := Function.update currState dest (currState pos)
  let s := setProcessed s dest
  let s := Function.update s pos oldDest
  setProcessed s pos

/-- The body of the inner loop (lines 109-173) for the cell at `(row, col)`. -/
def cellStep (W H : Nat) (frameCounter : Nat) (row col : Int) (currState : Grid) : Grid :=
  let pos : Int := col * W + row
  if (currState pos).processed then currState
  else
    let type := (currState pos).type
    if type = BLOCK_AIR ∨ type = BLOCK_WOOD then currState
    else
      let dest := chooseDest W H frameCounter row col currState
      let s := if dest ≠ -1 then applyMove currState pos dest else currState
      setProcessed s pos

/-- The values taken by `row` in the inner loop (lines 104-108), in order:
`rowStart`, `rowStart + step`, ... up to but excluding `rowEnd`. -/
def rowOrder (W : Nat) (frameCounter : Nat) : List Int :=
  let rowStart : Int := if frameCounter % 2 ≠ 0 then (W : Int) - 1 else 0
  let step : Int := if frameCounter % 2 ≠ 0 then -1 else 1
  (List.range W).map (fun (k : Nat) => rowStart + step * (k : Int))

/-- The values taken by `col` in the outer loop (line 103): `H - 1` down to `0`. -/
def colOrder (H : Nat) : List Int :=
  (List.range H).map (fun (k : Nat) => (H : Int) - 1 - (k : Int))

/-- The inner loop (lines 108-174) at the vertical level `col`. -/
def scanRow (W H : Nat) (frameCounter : Nat) (col : Int) (currState : Grid) : Grid :=
  (rowOrder W frameCounter).foldl (fun s row => cellStep W H frameCounter row col s) currState

/-- The outer loop (lines 103-175). -/
def scan (W H : Nat) (frameCounter : Nat) (currState : Grid) : Grid :=
  (colOrder H).foldl (fun s col => scanRow W H frameCounter col s) currState

/-- One update tick: the reset of the flags followed by the full scan. -/
def tick (W H : Nat) (frameCounter : Nat) (currState : Grid) : Grid :=
  scan W H frameCounter (resetProcessed W H currState)

/-- The statement `frameCounter++` on the unsigned 32-bit counter (line 76). -/
def nextFrame (frameCounter : Nat) : Nat := (frameCounter + 1) % 4294967296

/-- Ticks of `n` consecutive iterations of the main loop with no input: each
iteration increments the counter and then runs one tick with the new value. -/
def runTicks (W H : Nat) : Nat → Nat → Grid → Grid
  | 0, _, currState => currState
  | n + 1, frameCounter, currState =>
    runTicks W H n (nextFrame frameCounter) (tick W H (nextFrame frameCounter) currState)

/-! ## Moves and array accesses of a tick -/

/-- The move made by the loop body at `(row, col)` in `currState`: the pair
`(pos, dest)` for which the lines 164-172 are executed, if they are. -/
def cellMove (W H : Nat) (frameCounter : Nat) (row col : Int) (currState : Grid) :
    Option (Int × Int) :=
  let pos : Int := col * W + row
  if (currState pos).processed then none
  else
    let type := (currState pos).type
    if type = BLOCK_AIR ∨ type = BLOCK_WOOD then none
    else
      let dest := chooseDest W H frameCounter row col currState
      if dest ≠ -1 then some (pos, dest) else none

/-- The inner loop at the level `col`, run on the grid together with a record:
before each execution of the loop body, `obs row col currState` is appended to
the record. -/
def scanRowWith {β : Type} (obs : Int → Int → Grid → List β) (W H : Nat) (frameCounter : Nat)
    (col : Int) (st : Grid × List β) : Grid × List β :=
  (rowOrder W frameCounter).foldl
    (fun st row => (cellStep W H frameCounter row col st.1, st.2 ++ obs row col st.1)) st

/-- The outer loop run together with a record. -/
def scanWith {β : Type} (obs : Int → Int → Grid → List β) (W H : Nat) (frameCounter : Nat)
    (st : Grid × List β) : Grid × List β :=
  (colOrder H).foldl (fun st col => scanRowWith obs W H frameCounter col st) st

/-- The moves of one update tick, in the order in which they are made, each as
the pair (index of the source, index of the destination). -/
def tickMoves (W H : Nat) (frameCounter : Nat) (currState : Grid) : List (Int × Int) :=
  (scanWith (fun row col s => (cellMove W H frameCounter row col s).toList) W H frameCounter
    (resetProcessed W H currState, [])).2

/-- The indices `pos` at which the loop of `TrySlide` reads `state`, in order. -/
def TrySlideVisited (W : Nat) (col dir : Int) (state : Grid) : Nat → Int → List Int
  | 0, _ => []
  | n + 1, currentRow =>
    let currentRow := currentRow + dir
    if currentRow < 0 ∨ currentRow ≥ W then []
    else
      let pos := col * W + currentRow
      if !IsLiquid (state pos).type then [pos]
      else pos :: TrySlideVisited W col dir state n currentRow

/-- The array indices that the loop body at `(row, col)` can read or write:
`pos`; and, when the cell is not skipped, `under`, `underLeft` and `underRight`
when they are not `-1`, the indices visited by `TrySlide` in the two
directions, and `dest` when it is not `-1`.  (The body reads a part of these,
depending on the material.) -/
def cellIndices (W H : Nat) (frameCounter : Nat) (row col : Int) (currState : Grid) :
    List Int :=
  let pos : Int := col * W + row
  pos ::
    (if (currState pos).processed = true ∨ (currState pos).type = BLOCK_AIR ∨
        (currState pos).type = BLOCK_WOOD then []
     else
      ([under W H row col, underLeft W H row col, underRight W H row col].filter
          (fun i => decide (i ≠ -1))) ++
        TrySlideVisited W col (-1) currState 8 row ++
        TrySlideVisited W col 1 currState 8 row ++
        ([chooseDest W H frameCounter row col currState].filter (fun i => decide (i ≠ -1))))

/-- The array indices read or written during one update tick: the indices of
the reset loop, then those of each execution of the loop body of the scan. -/
def tickIndices (W H : Nat) (frameCounter : Nat) (currState : Grid) : List Int :=
  (List.range (W * H)).map (fun (i : Nat) => (i : Int)) ++
    (scanWith (cellIndices W H frameCounter) W H frameCounter
      (resetProcessed W H currState, [])).2

/-- The expression `col * WORKING_WIDTH + row` after macro expansion,
`col * 1664 / 4 + row`; the division is C's, truncating towards zero. -/
def posExpr (row col : Int) : Int :=
  Int.tdiv (col * (SCREEN_WIDTH : Int)) (PIXEL_SIZE : Int) + row

/-- The macro `TOTAL_WORKING_PIXELS` after expansion: `1664 / 4 * 936 / 4`. -/
def TOTAL_WORKING_PIXELS : Nat := SCREEN_WIDTH / PIXEL_SIZE * SCREEN_HEIGHT / PIXEL_SIZE

/-! ## Results of calls, `assert`, `CellFromType` (main.c, lines 31-42) -/

/-- How the execution of a piece of the program ends: with a value, with the
abort of a failed `assert`, or at the end of a non-void function without a
`return` (no value is defined). -/
inductive Outcome (α : Type) where
  | value (a : α)
  | aborted
  | noValue

/-- The macro `assert(e)` followed by `rest`: the program is aborted exactly when
`e` is zero (false). -/
def assertC {α : Type} (e : Bool) (rest : Outcome α) : Outcome α :=
  if e then rest else Outcome.aborted

/-- The condition `"unreachable"` of the two `assert`s (lines 40 and 198): a
string literal is the address of an array, never null, so the condition is
true. -/
def unreachableCondition : Bool := true

/-- The function `CellFromType`. -/
def CellFromType (type : BlockType) : Outcome CellData :=
  if type = BLOCK_AIR ∨ type = BLOCK_SAND ∨ type = BLOCK_WOOD ∨ type = BLOCK_WATER ∨
      type = BLOCK_ACID then
    Outcome.value ⟨type, false⟩
  else assertC unreachableCondition Outcome.noValue

/-- The variable `brushSize` (line 88). -/
def brushSize : Nat := 2

/-- The values of the loop variables `i` and `j` (lines 91-92):
`-brushSize, ..., brushSize`. -/
def brushRange : List Int :=
  (List.range (2 * brushSize + 1)).map (fun (k : Nat) => -(brushSize : Int) + (k : Int))

/-- The indices written by the two nested loops for the brush centre
`(row, col)`, in order: `((col + i) * W) + row + j`. -/
def brushIndices (W : Nat) (row col : Int) : List Int :=
  brushRange.flatMap (fun i => brushRange.map (fun j => ((col + i) * W) + row + j))

/-- The assignment `currState[idx] = CellFromType(selectedBlock)` (line 93). -/
def brushWrite (selectedBlock : BlockType) (acc : Outcome Grid) (idx : Int) : Outcome Grid :=
  match acc with
  | Outcome.value s =>
    match CellFromType selectedBlock with
    | Outcome.value c => Outcome.value (Function.update s idx c)
    | Outcome.aborted => Outcome.aborted
    | Outcome.noValue => Outcome.noValue
  | Outcome.aborted => Outcome.aborted
  | Outcome.noValue => Outcome.noValue

/-- The brush edit for the brush centre `(row, col)` (lines 90-96). -/
def brushEdit (W H : Nat) (row col : Int) (selectedBlock : BlockType) (currState : Grid) :
    Outcome Grid :=
  if row ≥ 0 ∧ row < W ∧ col ≥ 0 ∧ col < H then
    (brushIndices W row col).foldl (brushWrite selectedBlock) (Outcome.value currState)
  else Outcome.value currState

/-! ## The colour of a cell (main.c, lines 179-199) -/

/-- Step `k` of a slide from `startRow` in direction `dir` at level `col` is a
landing place: it lies in `[0, W)`, the cell there is Air, and the cells at the
steps `1 .. k - 1` are liquid (Water or Acid). -/
def SlideLands (W : Nat) (startRow col dir : Int) (state : Grid) (k : Nat) : Prop :=
  (0 ≤ startRow + k * dir ∧ startRow + k * dir < W) ∧
  (state (col * W + (startRow + k * dir))).type = BLOCK_AIR ∧
  ∀ j : Nat, 1 ≤ j → j < k →
    (state (col * W + (startRow + j * dir))).type = BLOCK_WATER ∨
    (state (col * W + (startRow + j * dir))).type = BLOCK_ACID

/-- The value `dest` is a legal destination for the cell at `(row, col)` of
`state`: a cell of the grid that is either one level below at horizontal offset
`-1`, `0` or `+1`, or on the same level at horizontal distance `1 .. 8`; it holds
Air, or a liquid when the moving material is Sand; only liquids move sideways. -/
def ValidMove (W H : Nat) (state : Grid) (row col dest : Int) : Prop :=
  ∃ destRow destCol : Int, dest = destCol * W + destRow ∧
    (0 ≤ destRow ∧ destRow < W) ∧ (0 ≤ destCol ∧ destCol < H) ∧
    ((destCol = col + 1 ∧ (row - 1 ≤ destRow ∧ destRow ≤ row + 1) ∧
        (((state (col * W + row)).type = BLOCK_SAND ∧
            ((state dest).type = BLOCK_AIR ∨ IsLiquid (state dest).type = true)) ∨
         (IsLiquid (state (col * W + row)).type = true ∧ (state dest).type = BLOCK_AIR))) ∨
     (destCol = col ∧ (1 ≤ |destRow - row| ∧ |destRow - row| ≤ 8) ∧
        IsLiquid (state (col * W + row)).type = true ∧ (state dest).type = BLOCK_AIR))

/-- The multiset of the materials held by the `W * H` cells of the grid. -/
def materials (W H : Nat) (g : Grid) : Multiset BlockType :=
  (Multiset.range (W * H)).map (fun i : Nat => (g (i : Int)).type)

/-- A cell that the scan leaves alone: already processed, or Air, or Wood
(the two tests of lines 110 and 113). -/
def Settled (c : CellData) : Prop :=
  c.processed = true ∨ c.type = BLOCK_AIR ∨ c.type = BLOCK_WOOD

/-- The grid the program starts from: `currState` is zero-initialised, every
cell is Air and unprocessed (line 68). -/
def initialGrid : Grid := fun _ => ⟨BLOCK_AIR, false⟩

/-- The number of Sand cells of the grid at vertical level `L` or lower on
screen, that is with vertical index `i / W` at least `L`. -/
def sandAtOrBelow (W H : Nat) (L : Nat) (g : Grid) : Nat :=
  ((Finset.range (W * H)).filter
    (fun i : Nat => L ≤ i / W ∧ (g (i : Int)).type = BLOCK_SAND)).card

/-- The only non-Air cell of the grid is the cell at horizontal position `x` and
vertical level `y`, and it holds the material `m`. -/
def OnlyCell (W H : Nat) (g : Grid) (x y : Int) (m : BlockType) : Prop :=
  ∀ row col : Int, 0 ≤ row ∧ row < W → 0 ≤ col ∧ col < H →
    (g (col * W + row)).type = if row = x ∧ col = y then m else BLOCK_AIR

/-- A grid of the program's size whose only non-Air cell is a Sand cell at
horizontal position 200 and vertical level 100. -/
def sandGrid : Grid := fun i =>
  if i = 100 * 416 + 200 then ⟨BLOCK_SAND, false⟩ else ⟨BLOCK_AIR, false⟩

/-- A grid of the program's size: level 101 is entirely Wood, the cells of level
100 at the horizontal positions 192 to 208 hold Water, every other cell is Air.
For the Water at `(200, 100)` the nearest Air of its level is 9 cells away. -/
def blockedGrid : Grid := fun i =>
  if 101 * 416 ≤ i ∧ i < 102 * 416 then ⟨BLOCK_WOOD, false⟩
  else if 100 * 416 + 192 ≤ i ∧ i ≤ 100 * 416 + 208 then ⟨BLOCK_WATER, false⟩
  else ⟨BLOCK_AIR, false⟩

/-- The vertical level `y + 1` is entirely Wood (a flat floor) and the only other
non-Air cell of the grid is a Water cell at `(x, y)`. -/
def WaterOnFloor (W H : Nat) (g : Grid) (x y : Int) : Prop :=
  ∀ row col : Int, 0 ≤ row ∧ row < W → 0 ≤ col ∧ col < H →
    (g (col * W + row)).type =
      if col = y + 1 then BLOCK_WOOD
      else if row = x ∧ col = y then BLOCK_WATER else BLOCK_AIR

/-- The cell at `(x, y)` is a cell of the grid's width and holds Water. -/
def WaterAt (W : Nat) (g : Grid) (x y : Int) : Prop :=
  (0 ≤ x ∧ x < W) ∧ (g (y * W + x)).type = BLOCK_WATER

/-- The conclusion of the liquid-leveling scenario in the specification's words:
in the grid `g2` reached after one tick the Water has left `(x, y)` and occupies
one of the diagonal positions `(x - 1, y + 1)`, `(x + 1, y + 1)`. -/
def OccupiesDiagonal (W : Nat) (g2 : Grid) (x y : Int) : Prop :=
  (g2 (y * W + x)).type ≠ BLOCK_WATER ∧
  ((g2 ((y + 1) * W + (x - 1))).type = BLOCK_WATER ∨
    (g2 ((y + 1) * W + (x + 1))).type = BLOCK_WATER)

/-- The conclusion of the lateral-bias scenario in the specification's words:
the Water starting at `(x, y)` is at `(x1, y)` after the tick with the frame
counter `f` and at `(x2, y)` after the next tick, and the two horizontal moves
go in opposite directions. -/
def OppositeDirections (W H : Nat) (g : Grid) (x y : Int) (f : Nat) : Prop :=
  ∃ x1 x2 : Int, WaterAt W (tick W H f g) x1 y ∧
    WaterAt W (tick W H (nextFrame f) (tick W H f g)) x2 y ∧
    ((x1 < x ∧ x1 < x2) ∨ (x < x1 ∧ x2 < x1))

/-- A grid of the program's size: level 101 is entirely Wood and the only other
non-Air cell is a Water cell at `(200, 100)`. -/
def floorGrid : Grid := fun i =>
  if 101 * 416 ≤ i ∧ i < 102 * 416 then ⟨BLOCK_WOOD, false⟩
  else if i = 100 * 416 + 200 then ⟨BLOCK_WATER, false⟩ else ⟨BLOCK_AIR, false⟩

/-- The relabelling of a material that exchanges Water and Acid. -/
def swapLiquid (t : BlockType) : BlockType :=
  if t = BLOCK_WATER then BLOCK_ACID else if t = BLOCK_ACID then BLOCK_WATER else t

/-- The cell-wise relabelling of a grid that turns every Water cell into Acid
and every Acid cell into Water and leaves everything else, the processed flags
included, unchanged. -/
def swapLiquids (g : Grid) : Grid := fun i => ⟨swapLiquid (g i).type, (g i).processed⟩

/-- A grid of the program's size whose only non-Air cells are two Sand cells,
one above the other, at `(200, 100)` and `(200, 101)`. -/
def stackGrid : Grid := fun i =>
  if i = 100 * 416 + 200 ∨ i = 101 * 416 + 200 then ⟨BLOCK_SAND, false⟩
  else ⟨BLOCK_AIR, false⟩

/-- The number of moves of the list in which the position `p` takes part, as
source or as destination. -/
def movesAt (moves : List (Int × Int)) (p : Int) : Nat :=
  (moves.filter (fun m => decide (m.1 = p ∨ m.2 = p))).length

/-- The move `m` is local: its source is a cell `(x, y)` of the grid and its
destination is the cell `(x + d, y + 1)` with `|d| ≤ 1` or the cell `(x + d, y)`
with `1 ≤ |d| ≤ 8`, a cell of the grid as well (`0 ≤ x + d < W`: the move does
not cross the left or right edge). -/
def LocalMove (W H : Nat) (m : Int × Int) : Prop :=
  ∃ x y d : Int, (0 ≤ x ∧ x < W) ∧ (0 ≤ y ∧ y < H) ∧ m.1 = y * W + x ∧
    (0 ≤ x + d ∧ x + d < W) ∧
    ((y + 1 < H ∧ m.2 = (y + 1) * W + (x + d) ∧ |d| ≤ 1) ∨
     (m.2 = y * W + (x + d) ∧ 1 ≤ |d| ∧ |d| ≤ 8))

/-- The cell `(r, c)` exists inside the grid and currently holds Air, Water or
Acid. -/
def sandCanEnter (W H : Nat) (s : Grid) (r c : Int) : Bool :=
  decide ((0 ≤ r ∧ r < W) ∧ (0 ≤ c ∧ c < H) ∧
    ((s (c * W + r)).type = BLOCK_AIR ∨ (s (c * W + r)).type = BLOCK_WATER ∨
      (s (c * W + r)).type = BLOCK_ACID))

/-- The destination of a Sand cell at `(x, y)` in the words of the
specification: the first of below, below-left, below-right that exists inside
the grid and holds Air, Water or Acid; `-1` when there is none. -/
def sandRuleDest (W H : Nat) (s : Grid) (x y : Int) : Int :=
  if sandCanEnter W H s x (y + 1) then (y + 1) * W + x
  else if sandCanEnter W H s (x - 1) (y + 1) then (y + 1) * W + (x - 1)
  else if sandCanEnter W H s (x + 1) (y + 1) then (y + 1) * W + (x + 1)
  else -1

/-- The cell `(r, c)` exists inside the grid and currently holds Air. -/
def holdsAir (W H : Nat) (s : Grid) (r c : Int) : Bool :=
  decide ((0 ≤ r ∧ r < W) ∧ (0 ≤ c ∧ c < H) ∧ (s (c * W + r)).type = BLOCK_AIR)

/-- The destination of a Water or Acid cell at `(x, y)` in the words of the
specification: below if it is Air; otherwise, the preferred side being left
(`-1`) exactly when `x + y + f` is even, the preferred diagonal below if it is
Air, else the other diagonal below if it is Air, else the result of the slide
search in the preferred direction, else that of the slide search in the
opposite direction (`-1` when that finds nothing). -/
def liquidRuleDest (W H : Nat) (f : Nat) (s : Grid) (x y : Int) : Int :=
  let side : Int := if (x + y + (f : Int)) % 2 = 0 then -1 else 1
  if holdsAir W H s x (y + 1) then (y + 1) * W + x
  else if holdsAir W H s (x + side) (y + 1) then (y + 1) * W + (x + side)
  else if holdsAir W H s (x - side) (y + 1) then (y + 1) * W + (x - side)
  else if TrySlide W x y side s ≠ -1 then TrySlide W x y side s
  else TrySlide W x y (-side) s

/-- The material `m` is one of the five enumerated materials. -/
def IsMaterial (m : BlockType) : Prop :=
  m = BLOCK_AIR ∨ m = BLOCK_SAND ∨ m = BLOCK_WATER ∨ m = BLOCK_WOOD ∨ m = BLOCK_ACID

theorem IsLiquid_iff (t : BlockType) : IsLiquid t = true ↔ t = BLOCK_WATER ∨ t = BLOCK_ACID := by
  simp [IsLiquid]

theorem TrySlideLoop_spec (W : Nat) (col dir : Int) (state : Grid) (hdir : dir = 1 ∨ dir = -1) :
    ∀ (n : Nat) (r : Int), 0 ≤ r → r < W →
      (∀ k : Nat, 1 ≤ k → k ≤ n → SlideLands W r col dir state k →
        TrySlideLoop W col dir state n r = col * W + (r + k * dir)) ∧
      ((∀ k : Nat, 1 ≤ k → k ≤ n → ¬ SlideLands W r col dir state k) →
        TrySlideLoop W col dir state n r = -1) := by
  intro n
  induction n with
  | zero =>
    intro r _ _
    refine ⟨fun k h1 h0 => absurd h1 (by omega), fun _ => rfl⟩
  | succ n ih =>
    intro r hr0 hrW
    have hshift : ∀ m : Nat, r + dir + (m : Int) * dir = r + ((m + 1 : Nat) : Int) * dir := by
      intro m; push_cast; ring
    have hone : r + ((1 : Nat) : Int) * dir = r + dir := by push_cast; ring
    -- a landing step beyond the first needs a liquid at the first step
    have hfirst : ∀ k : Nat, 2 ≤ k → SlideLands W r col dir state k →
        IsLiquid (state (col * W + (r + dir))).type = true := by
      intro k hk hl
      have := hl.2.2 1 (le_refl 1) (by omega)
      rw [hone] at this
      exact (IsLiquid_iff _).2 this
    -- no step lands when the first step leaves the grid
    have hout : (r + dir < 0 ∨ r + dir ≥ W) → ∀ k : Nat, 1 ≤ k → ¬ SlideLands W r col dir state k := by
      intro hb k hk hl
      have h1 := hl.1
      rcases hdir with rfl | rfl
      · simp only [mul_one] at h1; omega
      · simp only [mul_neg, mul_one] at h1; omega
    unfold TrySlideLoop
    simp only []
    by_cases hb : r + dir < 0 ∨ r + dir ≥ W
    · rw [if_pos hb]
      exact ⟨fun k h1 _ hl => absurd hl (hout hb k h1), fun _ => rfl⟩
    · rw [if_neg hb]
      have hb0 : 0 ≤ r + dir := by omega
      have hbW : r + dir < W := by omega
      by_cases hliq : IsLiquid (state (col * W + (r + dir))).type = true
      · -- the walk continues
        have hnotair : (state (col * W + (r + dir))).type ≠ BLOCK_AIR := by
          intro h; rw [h] at hliq; exact absurd hliq (by decide)
        simp only [hliq, Bool.not_true, Bool.false_eq_true, if_false]
        obtain ⟨ih1, ih2⟩ := ih (r + dir) hb0 hbW
        constructor
        · intro k h1 hk hl
          obtain ⟨m, rfl⟩ : ∃ m, k = m + 1 := ⟨k - 1, by omega⟩
          rcases Nat.eq_zero_or_pos m with rfl | hm
          · exact absurd (by simpa [hone] using hl.2.1) hnotair
          · rw [← hshift m]
            apply ih1 m hm (by omega)
            refine ⟨by rw [hshift m]; exact hl.1, by rw [hshift m]; exact hl.2.1, ?_⟩
            intro j hj1 hjm
            rw [hshift j]
            exact hl.2.2 (j + 1) (by omega) (by omega)
        · intro hno
          apply ih2
          intro k h1 hk hl
          apply hno (k + 1) (by omega) (by omega)
          refine ⟨by rw [← hshift k]; exact hl.1, by rw [← hshift k]; exact hl.2.1, ?_⟩
          intro j hj1 hjk
          obtain ⟨m, rfl⟩ : ∃ m, j = m + 1 := ⟨j - 1, by omega⟩
          rcases Nat.eq_zero_or_pos m with rfl | hm
          · rw [hone]; exact (IsLiquid_iff _).1 hliq
          · rw [← hshift m]
            exact hl.2.2 m hm (by omega)
      · -- the walk stops here
        have hliq' : IsLiquid (state (col * W + (r + dir))).type = false := by
          simpa using hliq
        simp only [hliq', Bool.not_false, if_true]
        by_cases hair : (state (col * W + (r + dir))).type = BLOCK_AIR
        · rw [if_pos hair]
          constructor
          · intro k h1 hk hl
            rcases Nat.lt_or_ge k 2 with h2 | h2
            · obtain rfl : k = 1 := by omega
              rw [hone]
            · exact absurd (hfirst k h2 hl) hliq
          · intro hno
            exfalso
            apply hno 1 (le_refl 1) (by omega)
            refine ⟨by rw [hone]; exact ⟨hb0, hbW⟩, by rw [hone]; exact hair, ?_⟩
            intro j hj1 hj2; omega
        · rw [if_neg hair]
          refine ⟨?_, fun _ => rfl⟩
          intro k h1 hk hl
          rcases Nat.lt_or_ge k 2 with h2 | h2
          · obtain rfl : k = 1 := by omega
            exact absurd (by simpa [hone] using hl.2.1) hair
          · exact absurd (hfirst k h2 hl) hliq

/-! ## Basic facts about the operations -/

theorem TrySlide_cases (W : Nat) (col dir : Int) (state : Grid) (hdir : dir = 1 ∨ dir = -1)
    (r : Int) (hr0 : 0 ≤ r) (hrW : r < W) :
    TrySlide W r col dir state = -1 ∨
      ∃ k : Nat, 1 ≤ k ∧ k ≤ 8 ∧ SlideLands W r col dir state k ∧
        TrySlide W r col dir state = col * W + (r + k * dir) := by
  obtain ⟨h1, h2⟩ := TrySlideLoop_spec W col dir state hdir 8 r hr0 hrW
  by_cases h : ∃ k : Nat, 1 ≤ k ∧ k ≤ 8 ∧ SlideLands W r col dir state k
  · obtain ⟨k, hk1, hk8, hl⟩ := h
    exact Or.inr ⟨k, hk1, hk8, hl, h1 k hk1 hk8 hl⟩
  · left
    apply h2
    intro k hk1 hk8 hl
    exact h ⟨k, hk1, hk8, hl⟩

theorem resetProcessed_apply (W H : Nat) (g : Grid) (i : Int) :
    resetProcessed W H g i =
      if 0 ≤ i ∧ i < ((W * H : Nat) : Int) then ⟨(g i).type, false⟩ else g i := by
  unfold resetProcessed
  generalize W * H = n
  induction n with
  | zero =>
    simp only [List.range_zero, List.foldl_nil]
    rw [if_neg]
    simp only [Nat.cast_zero]; omega
  | succ n ih =>
    rw [List.range_succ, List.foldl_append]
    simp only [List.foldl_cons, List.foldl_nil]
    by_cases hi : i = (n : Int)
    · subst hi
      rw [Function.update_same, ih]
      have h1 : ¬ (0 ≤ (n : Int) ∧ (n : Int) < ((n : Nat) : Int)) := by omega
      have h2 : 0 ≤ (n : Int) ∧ (n : Int) < ((n + 1 : Nat) : Int) := by push_cast; omega
      rw [if_neg h1, if_pos h2]
    · rw [Function.update_noteq hi, ih]
      by_cases h : 0 ≤ i ∧ i < ((n : Nat) : Int)
      · rw [if_pos h, if_pos]; push_cast; omega
      · rw [if_neg h, if_neg]; push_cast; omega

theorem resetProcessed_type (W H : Nat) (g : Grid) (i : Int) :
    (resetProcessed W H g i).type = (g i).type := by
  rw [resetProcessed_apply]; split_ifs <;> rfl

theorem resetProcessed_processed (W H : Nat) (g : Grid) (i : Int)
    (hi : 0 ≤ i ∧ i < ((W * H : Nat) : Int)) :
    (resetProcessed W H g i).processed = false := by
  rw [resetProcessed_apply, if_pos hi]

theorem setProcessed_apply (s : Grid) (p i : Int) :
    setProcessed s p i = if i = p then ⟨(s p).type, true⟩ else s i := by
  unfold setProcessed
  by_cases h : i = p
  · subst h; rw [Function.update_same, if_pos rfl]
  · rw [Function.update_noteq h, if_neg h]

theorem applyMove_apply (s : Grid) (pos dest i : Int) :
    applyMove s pos dest i =
      if i = pos then ⟨(s dest).type, true⟩
      else if i = dest then ⟨(s pos).type, true⟩ else s i := by
  simp only [applyMove, setProcessed_apply, Function.update_apply]
  by_cases h : i = pos
  · subst h; simp
  · by_cases h2 : i = dest
    · subst h2; simp [h]
    · simp [h, h2]

/-- The closed form of the loop body. -/
theorem cellStep_eq (W H f : Nat) (row col : Int) (s : Grid) :
    cellStep W H f row col s =
      if (s (col * W + row)).processed = true ∨ (s (col * W + row)).type = BLOCK_AIR ∨
          (s (col * W + row)).type = BLOCK_WOOD then s
      else if chooseDest W H f row col s = -1 then setProcessed s (col * W + row)
      else applyMove s (col * W + row) (chooseDest W H f row col s) := by
  unfold cellStep
  simp only []
  by_cases hp : (s (col * W + row)).processed = true
  · simp [hp]
  · by_cases ht : (s (col * W + row)).type = BLOCK_AIR ∨ (s (col * W + row)).type = BLOCK_WOOD
    · simp only [hp, ht, or_true, if_true, Bool.false_eq_true, if_false]
    · have ht' : ¬ ((s (col * W + row)).processed = true ∨ (s (col * W + row)).type = BLOCK_AIR ∨
          (s (col * W + row)).type = BLOCK_WOOD) := by
        rintro (h | h)
        · exact hp h
        · exact ht h
      rw [if_neg hp, if_neg ht, if_neg ht']
      by_cases hd : chooseDest W H f row col s = -1
      · simp [hd]
      · simp only [hd, ne_eq, not_false_eq_true, if_true, if_false]
        funext i
        rw [setProcessed_apply, applyMove_apply, applyMove_apply]
        by_cases hi : i = col * W + row
        · simp [hi]
        · simp [hi]

theorem cellStep_skip (W H f : Nat) (row col : Int) (s : Grid)
    (h : (s (col * W + row)).processed = true ∨ (s (col * W + row)).type = BLOCK_AIR ∨
          (s (col * W + row)).type = BLOCK_WOOD) :
    cellStep W H f row col s = s := by
  rw [cellStep_eq, if_pos h]

/-! ## The destination of a move -/

theorem under_spec (W H : Nat) (row col : Int) (_hrow : 0 ≤ row) (_hcol : 0 ≤ col)
    (h : under W H row col ≠ -1) :
    col + 1 < H ∧ under W H row col = (col + 1) * W + row := by
  unfold under at h ⊢
  by_cases hH : col + 1 < H
  · rw [if_pos hH]; exact ⟨hH, by ring⟩
  · rw [if_neg hH] at h; exact absurd rfl h

theorem underLeft_spec (W H : Nat) (row col : Int) (hrow : 0 ≤ row) (hcol : 0 ≤ col)
    (h : underLeft W H row col ≠ -1) :
    col + 1 < H ∧ 0 < row ∧ underLeft W H row col = (col + 1) * W + (row - 1) := by
  unfold underLeft at h ⊢
  by_cases hc : under W H row col ≠ -1 ∧ row > 0
  · rw [if_pos hc]
    obtain ⟨hH, hu⟩ := under_spec W H row col hrow hcol hc.1
    exact ⟨hH, hc.2, by rw [hu]; ring⟩
  · rw [if_neg hc] at h; exact absurd rfl h

theorem underRight_spec (W H : Nat) (row col : Int) (hrow : 0 ≤ row) (hcol : 0 ≤ col)
    (h : underRight W H row col ≠ -1) :
    col + 1 < H ∧ row < (W : Int) - 1 ∧ underRight W H row col = (col + 1) * W + (row + 1) := by
  unfold underRight at h ⊢
  by_cases hc : under W H row col ≠ -1 ∧ row < (W : Int) - 1
  · rw [if_pos hc]
    obtain ⟨hH, hu⟩ := under_spec W H row col hrow hcol hc.1
    exact ⟨hH, hc.2, by rw [hu]; ring⟩
  · rw [if_neg hc] at h; exact absurd rfl h

theorem validMove_below (W H : Nat) (s : Grid) (row col d : Int)
    (hrow : 0 ≤ row ∧ row < W) (hcol : 0 ≤ col ∧ col < H)
    (hd : d = under W H row col ∨ d = underLeft W H row col ∨ d = underRight W H row col)
    (hne : d ≠ -1)
    (hc : ((s (col * W + row)).type = BLOCK_SAND ∧
            ((s d).type = BLOCK_AIR ∨ IsLiquid (s d).type = true)) ∨
          (IsLiquid (s (col * W + row)).type = true ∧ (s d).type = BLOCK_AIR)) :
    ValidMove W H s row col d := by
  rcases hd with hd | hd | hd
  · obtain ⟨hH, hu⟩ := under_spec W H row col hrow.1 hcol.1 (hd ▸ hne)
    exact ⟨row, col + 1, by rw [hd, hu], hrow, ⟨by omega, hH⟩,
      Or.inl ⟨rfl, ⟨by omega, by omega⟩, hc⟩⟩
  · obtain ⟨hH, h0, hu⟩ := underLeft_spec W H row col hrow.1 hcol.1 (hd ▸ hne)
    exact ⟨row - 1, col + 1, by rw [hd, hu], ⟨by omega, by omega⟩, ⟨by omega, hH⟩,
      Or.inl ⟨rfl, ⟨by omega, by omega⟩, hc⟩⟩
  · obtain ⟨hH, h0, hu⟩ := underRight_spec W H row col hrow.1 hcol.1 (hd ▸ hne)
    exact ⟨row + 1, col + 1, by rw [hd, hu], ⟨by omega, by omega⟩, ⟨by omega, hH⟩,
      Or.inl ⟨rfl, ⟨by omega, by omega⟩, hc⟩⟩

/-- A destination returned by the slide search: same level, in the grid, 1 to 8
steps away, and Air. -/
theorem validMove_slide_row (W H : Nat) (s : Grid) (row col dir : Int)
    (hrow : 0 ≤ row ∧ row < W) (_hcol : 0 ≤ col ∧ col < H) (hdir : dir = 1 ∨ dir = -1)
    (hne : TrySlide W row col dir s ≠ -1) :
    ∃ destRow : Int, TrySlide W row col dir s = col * W + destRow ∧
      (0 ≤ destRow ∧ destRow < W) ∧ (1 ≤ |destRow - row| ∧ |destRow - row| ≤ 8) ∧
      (s (TrySlide W row col dir s)).type = BLOCK_AIR := by
  rcases TrySlide_cases W col dir s hdir row hrow.1 hrow.2 with h | ⟨k, hk1, hk8, hl, he⟩
  · exact absurd h hne
  · refine ⟨row + k * dir, he, hl.1, ?_, by rw [he]; exact hl.2.1⟩
    have hk : (1 : Int) ≤ k ∧ (k : Int) ≤ 8 := by omega
    rcases hdir with rfl | rfl
    · have : row + (k : Int) * 1 - row = k := by ring
      rw [this, abs_of_nonneg (by omega)]; exact hk
    · have : row + (k : Int) * -1 - row = -(k : Int) := by ring
      rw [this, abs_neg, abs_of_nonneg (by omega)]; exact hk

theorem validMove_slide (W H : Nat) (s : Grid) (row col dir : Int)
    (hrow : 0 ≤ row ∧ row < W) (hcol : 0 ≤ col ∧ col < H) (hdir : dir = 1 ∨ dir = -1)
    (hliq : IsLiquid (s (col * W + row)).type = true)
    (hne : TrySlide W row col dir s ≠ -1) :
    ValidMove W H s row col (TrySlide W row col dir s) := by
  obtain ⟨r, he, hr, hd, hair⟩ := validMove_slide_row W H s row col dir hrow hcol hdir hne
  exact ⟨r, col, he, hr, hcol, Or.inr ⟨rfl, hd, hliq, hair⟩⟩

theorem diag_choice (a b : Int) (A B : Prop) [Decidable A] [Decidable B] (P : Int → Prop)
    (ha : A → P a) (hb : B → P b) :
    (if A then a else if B then b else -1) = -1 ∨ P (if A then a else if B then b else -1) := by
  split_ifs with h1 h2
  · exact Or.inr (ha h1)
  · exact Or.inr (hb h2)
  · exact Or.inl rfl

theorem dest_final (dd t1 t2 : Int) (P : Int → Prop) (hdd : dd = -1 ∨ P dd)
    (h1 : t1 = -1 ∨ P t1) (h2 : t2 = -1 ∨ P t2) :
    (if dd = -1 then (if t1 = -1 then t2 else t1) else dd) = -1 ∨
      P (if dd = -1 then (if t1 = -1 then t2 else t1) else dd) := by
  split_ifs with ha hb
  · exact h2
  · exact h1
  · exact hdd

/-- Every destination chosen by the per-cell rule is a legal one. -/
theorem chooseDest_spec (W H f : Nat) (s : Grid) (row col : Int)
    (hrow : 0 ≤ row ∧ row < W) (hcol : 0 ≤ col ∧ col < H) :
    chooseDest W H f row col s = -1 ∨ ValidMove W H s row col (chooseDest W H f row col s) := by
  unfold chooseDest
  simp only []
  by_cases hs : (s (col * W + row)).type = BLOCK_SAND
  · rw [if_pos hs]
    split_ifs
    · right; exact validMove_below W H s row col _ hrow hcol (by simp) (by tauto) (by tauto)
    · right; exact validMove_below W H s row col _ hrow hcol (by simp) (by tauto) (by tauto)
    · right; exact validMove_below W H s row col _ hrow hcol (by simp) (by tauto) (by tauto)
    · left; rfl
  · rw [if_neg hs]
    by_cases hl : (s (col * W + row)).type = BLOCK_WATER ∨ (s (col * W + row)).type = BLOCK_ACID
    · rw [if_pos hl]
      have hliq : IsLiquid (s (col * W + row)).type = true := (IsLiquid_iff _).2 hl
      have hsl : ∀ dir : Int, dir = 1 ∨ dir = -1 →
          TrySlide W row col dir s = -1 ∨ ValidMove W H s row col (TrySlide W row col dir s) := by
        intro dir hdir
        by_cases h : TrySlide W row col dir s = -1
        · exact Or.inl h
        · exact Or.inr (validMove_slide W H s row col dir hrow hcol hdir hliq h)
      by_cases h1 : under W H row col ≠ -1 ∧ (s (under W H row col)).type = BLOCK_AIR
      · rw [if_pos h1]
        exact Or.inr (validMove_below W H s row col _ hrow hcol (by simp) h1.1 (Or.inr ⟨hliq, h1.2⟩))
      · rw [if_neg h1]
        have hL : underLeft W H row col ≠ -1 ∧ (s (underLeft W H row col)).type = BLOCK_AIR →
            ValidMove W H s row col (underLeft W H row col) := fun h =>
          validMove_below W H s row col _ hrow hcol (by simp) h.1 (Or.inr ⟨hliq, h.2⟩)
        have hR : underRight W H row col ≠ -1 ∧ (s (underRight W H row col)).type = BLOCK_AIR →
            ValidMove W H s row col (underRight W H row col) := fun h =>
          validMove_below W H s row col _ hrow hcol (by simp) h.1 (Or.inr ⟨hliq, h.2⟩)
        cases hp : preferLeft f row col
        · simp only [Bool.false_eq_true, if_false]
          exact dest_final _ _ _ (fun d => ValidMove W H s row col d)
            (diag_choice _ _ _ _ _ hR hL) (hsl 1 (by simp)) (hsl (-1) (by simp))
        · simp only [if_true]
          exact dest_final _ _ _ (fun d => ValidMove W H s row col d)
            (diag_choice _ _ _ _ _ hL hR) (hsl (-1) (by simp)) (hsl 1 (by simp))
    · rw [if_neg hl]; left; rfl

/-! ## The scan order and the index of a cell -/

theorem idx_range (W H : Nat) (row col : Int) (hrow : 0 ≤ row ∧ row < W)
    (hcol : 0 ≤ col ∧ col < H) :
    0 ≤ col * W + row ∧ col * W + row < ((W * H : Nat) : Int) := by
  have hW : (0 : Int) ≤ W := Int.natCast_nonneg W
  have h1 : 0 ≤ col * W := mul_nonneg hcol.1 hW
  have h2 : (col + 1) * (W : Int) ≤ (H : Int) * W :=
    mul_le_mul_of_nonneg_right (by omega) hW
  push_cast
  constructor
  · omega
  · nlinarith

theorem idx_inj (W : Nat) (r1 c1 r2 c2 : Int) (h1 : 0 ≤ r1 ∧ r1 < W) (h2 : 0 ≤ r2 ∧ r2 < W)
    (h : c1 * W + r1 = c2 * W + r2) : r1 = r2 ∧ c1 = c2 := by
  have hc : c1 = c2 := by
    rcases lt_trichotomy c1 c2 with hlt | heq | hgt
    · exfalso
      have : (c1 + 1) * (W : Int) ≤ c2 * W :=
        mul_le_mul_of_nonneg_right (by omega) (Int.natCast_nonneg W)
      nlinarith
    · exact heq
    · exfalso
      have : (c2 + 1) * (W : Int) ≤ c1 * W :=
        mul_le_mul_of_nonneg_right (by omega) (Int.natCast_nonneg W)
      nlinarith
  subst hc
  exact ⟨by omega, rfl⟩

theorem idx_decomp (W H : Nat) (i : Int) (hi : 0 ≤ i ∧ i < ((W * H : Nat) : Int)) :
    ∃ row col : Int, (0 ≤ row ∧ row < W) ∧ (0 ≤ col ∧ col < H) ∧ i = col * W + row := by
  have hWpos : (0 : Int) < W := by
    rcases Nat.eq_zero_or_pos W with h | h
    · subst h; simp at hi; omega
    · exact_mod_cast h
  refine ⟨i % W, i / W, ⟨Int.emod_nonneg _ (by omega), Int.emod_lt_of_pos _ hWpos⟩,
    ⟨Int.ediv_nonneg hi.1 (by omega), ?_⟩, ?_⟩
  · apply Int.ediv_lt_of_lt_mul hWpos
    have := hi.2
    push_cast at this
    rw [mul_comm]; exact this
  · rw [mul_comm]; exact (Int.ediv_add_emod i W).symm

theorem mem_rowOrder (W f : Nat) (row : Int) : row ∈ rowOrder W f ↔ 0 ≤ row ∧ row < W := by
  unfold rowOrder
  simp only [List.mem_map, List.mem_range]
  constructor
  · rintro ⟨k, hk, rfl⟩
    split_ifs <;> omega
  · intro h
    by_cases hf : f % 2 ≠ 0
    · refine ⟨((W : Int) - 1 - row).toNat, by omega, ?_⟩
      rw [if_pos hf, if_pos hf]; omega
    · refine ⟨row.toNat, by omega, ?_⟩
      rw [if_neg hf, if_neg hf]; omega

theorem nodup_rowOrder (W f : Nat) : (rowOrder W f).Nodup := by
  unfold rowOrder
  apply List.Nodup.map _ (List.nodup_range W)
  intro a b h
  simp only at h
  split_ifs at h <;> omega

theorem mem_colOrder (H : Nat) (col : Int) : col ∈ colOrder H ↔ 0 ≤ col ∧ col < H := by
  unfold colOrder
  simp only [List.mem_map, List.mem_range]
  constructor
  · rintro ⟨k, hk, rfl⟩; omega
  · intro h
    exact ⟨((H : Int) - 1 - col).toNat, by omega, by omega⟩

theorem nodup_colOrder (H : Nat) : (colOrder H).Nodup := by
  unfold colOrder
  apply List.Nodup.map _ (List.nodup_range H)
  intro a b h
  simp only at h
  omega

/-! ## Invariants of loops -/

theorem foldl_invariant {α β : Type} (P : β → Prop) (step : β → α → β) (l : List α) :
    ∀ s : β, P s → (∀ e ∈ l, ∀ t, P t → P (step t e)) → P (l.foldl step s) := by
  induction l with
  | nil => intro s hs _; exact hs
  | cons a t ih =>
    intro s hs hstep
    rw [List.foldl_cons]
    apply ih
    · exact hstep a (List.mem_cons_self a t) s hs
    · intro e he u hu
      exact hstep e (List.mem_cons_of_mem a he) u hu

/-- A property that every per-cell step on a cell of the grid preserves holds
after the whole scan. -/
theorem scan_invariant (W H f : Nat) (P : Grid → Prop)
    (hstep : ∀ (row col : Int) (s : Grid), 0 ≤ row ∧ row < W → 0 ≤ col ∧ col < H →
      P s → P (cellStep W H f row col s))
    (s : Grid) (hs : P s) : P (scan W H f s) := by
  unfold scan
  apply foldl_invariant P _ _ s hs
  intro col hcol t ht
  unfold scanRow
  apply foldl_invariant P _ _ t ht
  intro row hrow u hu
  exact hstep row col u ((mem_rowOrder W f row).1 hrow) ((mem_colOrder H col).1 hcol) hu

/-! ## Conservation of the materials -/

theorem materials_congr (W H : Nat) (g1 g2 : Grid)
    (h : ∀ i : Int, 0 ≤ i ∧ i < ((W * H : Nat) : Int) → (g1 i).type = (g2 i).type) :
    materials W H g1 = materials W H g2 := by
  unfold materials
  apply Multiset.map_congr rfl
  intro i hi
  rw [Multiset.mem_range] at hi
  exact h i ⟨by omega, by omega⟩

theorem map_swap_range (n p q : Nat) (hp : p < n) (hq : q < n) :
    Multiset.map (Equiv.swap p q) (Multiset.range n) = Multiset.range n := by
  have hmem : ∀ a : Nat, Equiv.swap p q a < n ↔ a < n := by
    intro a
    rw [Equiv.swap_apply_def]
    split_ifs with h1 h2
    · subst h1; exact ⟨fun _ => hp, fun _ => hq⟩
    · subst h2; exact ⟨fun _ => hq, fun _ => hp⟩
    · exact Iff.rfl
  rw [Multiset.Nodup.ext ((Multiset.nodup_range n).map (Equiv.swap p q).injective)
    (Multiset.nodup_range n)]
  intro a
  rw [Multiset.mem_map, Multiset.mem_range]
  constructor
  · rintro ⟨b, hb, rfl⟩
    rw [Multiset.mem_range] at hb
    exact (hmem b).2 hb
  · intro ha
    exact ⟨Equiv.swap p q a, Multiset.mem_range.2 ((hmem a).2 ha), Equiv.swap_apply_self p q a⟩

theorem applyMove_type_swap (s : Grid) (p q i : Nat) :
    (applyMove s (p : Int) (q : Int) (i : Int)).type = (s ((Equiv.swap p q i : Nat) : Int)).type := by
  rw [applyMove_apply, Equiv.swap_apply_def]
  by_cases h1 : i = p
  · subst h1; simp
  · have h1' : (i : Int) ≠ (p : Int) := by omega
    by_cases h2 : i = q
    · subst h2; simp [h1, h1']
    · have h2' : (i : Int) ≠ (q : Int) := by omega
      simp [h1, h2, h1', h2']

theorem materials_applyMove (W H : Nat) (s : Grid) (pos dest : Int)
    (hpos : 0 ≤ pos ∧ pos < ((W * H : Nat) : Int))
    (hdest : 0 ≤ dest ∧ dest < ((W * H : Nat) : Int)) :
    materials W H (applyMove s pos dest) = materials W H s := by
  obtain ⟨p, rfl⟩ := Int.eq_ofNat_of_zero_le hpos.1
  obtain ⟨q, rfl⟩ := Int.eq_ofNat_of_zero_le hdest.1
  have hp : p < W * H := by omega
  have hq : q < W * H := by omega
  unfold materials
  have h1 : (fun i : Nat => (applyMove s (p : Int) (q : Int) (i : Int)).type) =
      (fun j : Nat => (s (j : Int)).type) ∘ (Equiv.swap p q) := by
    funext i
    exact applyMove_type_swap s p q i
  rw [h1, ← Multiset.map_map, map_swap_range (W * H) p q hp hq]

theorem validMove_range (W H : Nat) (s : Grid) (row col dest : Int)
    (h : ValidMove W H s row col dest) : 0 ≤ dest ∧ dest < ((W * H : Nat) : Int) := by
  obtain ⟨r, c, rfl, hr, hc, _⟩ := h
  exact idx_range W H r c hr hc

theorem cellStep_materials (W H f : Nat) (row col : Int) (s : Grid)
    (hrow : 0 ≤ row ∧ row < W) (hcol : 0 ≤ col ∧ col < H) :
    materials W H (cellStep W H f row col s) = materials W H s := by
  rw [cellStep_eq]
  split_ifs with h1 h2
  · rfl
  · apply materials_congr
    intro i _
    rw [setProcessed_apply]
    split_ifs with hi
    · rw [hi]
    · rfl
  · rcases chooseDest_spec W H f s row col hrow hcol with h | h
    · exact absurd h h2
    · exact materials_applyMove W H s _ _ (idx_range W H row col hrow hcol)
        (validMove_range W H s row col _ h)

theorem resetProcessed_materials (W H : Nat) (g : Grid) :
    materials W H (resetProcessed W H g) = materials W H g :=
  materials_congr W H _ _ (fun i _ => resetProcessed_type W H g i)

/-! ## Cells the scan leaves alone -/

/-- A per-cell step changes a cell only by leaving it processed. -/
theorem cellStep_changes (W H f : Nat) (row col : Int) (s : Grid) (i : Int) :
    cellStep W H f row col s i = s i ∨ (cellStep W H f row col s i).processed = true := by
  rw [cellStep_eq]
  split_ifs with h1 h2
  · exact Or.inl rfl
  · rw [setProcessed_apply]
    split_ifs
    · exact Or.inr rfl
    · exact Or.inl rfl
  · rw [applyMove_apply]
    split_ifs
    · exact Or.inr rfl
    · exact Or.inr rfl
    · exact Or.inl rfl

theorem cellStep_preserves_settled (W H f : Nat) (row col : Int) (s : Grid) (i : Int)
    (h : Settled (s i)) : Settled (cellStep W H f row col s i) := by
  rcases cellStep_changes W H f row col s i with h1 | h1
  · rw [h1]; exact h
  · exact Or.inl h1

theorem cellStep_settles_self (W H f : Nat) (row col : Int) (s : Grid) :
    Settled (cellStep W H f row col s (col * W + row)) := by
  rw [cellStep_eq]
  split_ifs with h1 h2
  · exact h1
  · rw [setProcessed_apply, if_pos rfl]; exact Or.inl rfl
  · rw [applyMove_apply, if_pos rfl]; exact Or.inl rfl

theorem foldl_skip {α β : Type} (step : β → α → β) (s : β) (l : List α)
    (h : ∀ e ∈ l, step s e = s) : l.foldl step s = s := by
  induction l with
  | nil => rfl
  | cons a t ih =>
    rw [List.foldl_cons, h a (List.mem_cons_self a t)]
    exact ih (fun e he => h e (List.mem_cons_of_mem a he))

theorem foldl_single {α β : Type} (step : β → α → β) (s : β) (e0 : α) (l : List α)
    (hnd : l.Nodup) (hmem : e0 ∈ l)
    (h1 : ∀ e ∈ l, e ≠ e0 → step s e = s)
    (h2 : ∀ e ∈ l, e ≠ e0 → step (step s e0) e = step s e0) :
    l.foldl step s = step s e0 := by
  induction l with
  | nil => exact absurd hmem (List.not_mem_nil e0)
  | cons a t ih =>
    rw [List.foldl_cons]
    rw [List.nodup_cons] at hnd
    by_cases ha : a = e0
    · subst ha
      apply foldl_skip
      intro e he
      exact h2 e (List.mem_cons_of_mem a he) (fun h => hnd.1 (h ▸ he))
    · rw [h1 a (List.mem_cons_self a t) ha]
      rcases List.mem_cons.1 hmem with h | h
      · exact absurd h.symm ha
      · exact ih hnd.2 h (fun e he => h1 e (List.mem_cons_of_mem a he))
          (fun e he => h2 e (List.mem_cons_of_mem a he))

theorem foldl_establish {α β : Type} (Q : α → β → Prop) (step : β → α → β)
    (hself : ∀ e s, Q e (step s e)) (hpres : ∀ e e2 s, Q e s → Q e (step s e2)) :
    ∀ (l : List α) (s : β), ∀ e ∈ l, Q e (l.foldl step s) := by
  intro l
  induction l with
  | nil => intro s e he; exact absurd he (List.not_mem_nil e)
  | cons a t ih =>
    intro s e he
    rw [List.foldl_cons]
    rcases List.mem_cons.1 he with h | h
    · subst h
      exact foldl_invariant (Q e) step t _ (hself e s) (fun e2 _ u hu => hpres e e2 u hu)
    · exact ih (step s a) e h

theorem scanRow_preserves_settled (W H f : Nat) (col : Int) (s : Grid) (i : Int)
    (h : Settled (s i)) : Settled (scanRow W H f col s i) := by
  unfold scanRow
  exact foldl_invariant (fun t => Settled (t i)) _ _ s h
    (fun row _ t ht => cellStep_preserves_settled W H f row col t i ht)

theorem scanRow_settles (W H f : Nat) (col : Int) (s : Grid) (row : Int)
    (hrow : 0 ≤ row ∧ row < W) : Settled (scanRow W H f col s (col * W + row)) := by
  unfold scanRow
  exact foldl_establish (fun r t => Settled (t (col * W + r))) _
    (fun r t => cellStep_settles_self W H f r col t)
    (fun r r2 t ht => cellStep_preserves_settled W H f r2 col t _ ht)
    (rowOrder W f) s row ((mem_rowOrder W f row).2 hrow)

/-- After the scan every cell of the grid is processed, or Air, or Wood. -/
theorem scan_settles (W H f : Nat) (s : Grid) (i : Int)
    (hi : 0 ≤ i ∧ i < ((W * H : Nat) : Int)) : Settled (scan W H f s i) := by
  obtain ⟨row, col, hrow, hcol, rfl⟩ := idx_decomp W H i hi
  unfold scan
  exact foldl_establish (fun c t => ∀ r : Int, 0 ≤ r ∧ r < W → Settled (t (c * W + r))) _
    (fun c t r hr => scanRow_settles W H f c t r hr)
    (fun c c2 t ht r hr => scanRow_preserves_settled W H f c2 t _ (ht r hr))
    (colOrder H) s col ((mem_colOrder H col).2 hcol) row hrow

/-- The scan changes nothing when every cell of the grid is processed, Air or
Wood. -/
theorem scan_skip (W H f : Nat) (s : Grid)
    (h : ∀ i : Int, 0 ≤ i ∧ i < ((W * H : Nat) : Int) → Settled (s i)) :
    scan W H f s = s := by
  unfold scan
  apply foldl_skip
  intro col hcol
  unfold scanRow
  apply foldl_skip
  intro row hrow
  exact cellStep_skip W H f row col s
    (h _ (idx_range W H row col ((mem_rowOrder W f row).1 hrow) ((mem_colOrder H col).1 hcol)))

/-! ## Sand never rises -/

theorem level_idx (W : Nat) (p : Nat) (row col : Int) (hrow : 0 ≤ row ∧ row < W)
    (hp : (p : Int) = col * W + row) : ((p / W : Nat) : Int) = col := by
  have hW : (W : Int) ≠ 0 := by omega
  have h1 : ((p / W : Nat) : Int) = (p : Int) / (W : Int) := by norm_cast
  rw [h1, hp, add_comm, Int.add_mul_ediv_right _ _ hW, Int.ediv_eq_zero_of_lt hrow.1 hrow.2]
  simp

/-- What a legal move does to Sand: the destination never holds Sand, and Sand
goes one level down. -/
theorem validMove_sand (W H : Nat) (s : Grid) (row col dest : Int)
    (h : ValidMove W H s row col dest) :
    (s dest).type ≠ BLOCK_SAND ∧
    ((s (col * W + row)).type = BLOCK_SAND →
      ∃ destRow : Int, (0 ≤ destRow ∧ destRow < W) ∧ col + 1 < H ∧
        dest = (col + 1) * W + destRow) := by
  have hair : ∀ t : BlockType, t = BLOCK_AIR ∨ IsLiquid t = true → t ≠ BLOCK_SAND := by
    intro t ht hs
    subst hs
    rcases ht with h | h
    · exact absurd h (by decide)
    · exact absurd h (by decide)
  have hliq : ∀ t : BlockType, IsLiquid t = true → t ≠ BLOCK_SAND := fun t ht =>
    hair t (Or.inr ht)
  obtain ⟨r, c, hd, hr, hc, hcase⟩ := h
  rcases hcase with ⟨hc1, _, hcontent⟩ | ⟨_, _, hl, ha⟩
  · constructor
    · rcases hcontent with ⟨_, h2⟩ | ⟨_, h2⟩
      · exact hair _ h2
      · exact hair _ (Or.inl h2)
    · intro _
      exact ⟨r, hr, by omega, by rw [hd, hc1]⟩
  · exact ⟨hair _ (Or.inl ha), fun hs => absurd hs (hliq _ hl)⟩

theorem sandAtOrBelow_congr (W H L : Nat) (g1 g2 : Grid)
    (h : ∀ i : Int, 0 ≤ i ∧ i < ((W * H : Nat) : Int) → (g1 i).type = (g2 i).type) :
    sandAtOrBelow W H L g1 = sandAtOrBelow W H L g2 := by
  unfold sandAtOrBelow
  congr 1
  apply Finset.filter_congr
  intro i hi
  rw [Finset.mem_range] at hi
  rw [h i ⟨by omega, by omega⟩]

theorem sandAtOrBelow_applyMove (W H L : Nat) (s : Grid) (row col dest : Int)
    (hrow : 0 ≤ row ∧ row < W) (hcol : 0 ≤ col ∧ col < H)
    (h : ValidMove W H s row col dest) :
    sandAtOrBelow W H L s ≤ sandAtOrBelow W H L (applyMove s (col * W + row) dest) := by
  obtain ⟨hpos0, hposn⟩ := idx_range W H row col hrow hcol
  obtain ⟨hd0, hdn⟩ := validMove_range W H s row col dest h
  obtain ⟨hnotsand, hdown⟩ := validMove_sand W H s row col dest h
  obtain ⟨p, hp⟩ := Int.eq_ofNat_of_zero_le hpos0
  obtain ⟨q, hq⟩ := Int.eq_ofNat_of_zero_le hd0
  rw [hp] at hposn
  rw [hq] at hdn hnotsand
  rw [hp, hq]
  have hpn : p < W * H := by omega
  have hqn : q < W * H := by omega
  unfold sandAtOrBelow
  apply Finset.card_le_card_of_injOn (Equiv.swap p q)
  · intro a ha
    rw [Finset.mem_filter, Finset.mem_range] at ha ⊢
    obtain ⟨han, haL, hasand⟩ := ha
    rw [applyMove_type_swap, Equiv.swap_apply_self]
    refine ⟨?_, ?_, hasand⟩
    · rw [Equiv.swap_apply_def]; split_ifs <;> omega
    · rw [Equiv.swap_apply_def]
      split_ifs with h1 h2
      · subst h1
        rw [← hp] at hasand
        obtain ⟨r, hr, _, hdr⟩ := hdown hasand
        have e1 := level_idx W a row col hrow hp.symm
        have e2 := level_idx W q r (col + 1) hr (by rw [← hq, hdr])
        omega
      · subst h2; exact absurd hasand hnotsand
      · exact haL
  · exact (Equiv.swap p q).injective.injOn

theorem sandAtOrBelow_cellStep (W H f L : Nat) (row col : Int) (s : Grid)
    (hrow : 0 ≤ row ∧ row < W) (hcol : 0 ≤ col ∧ col < H) :
    sandAtOrBelow W H L s ≤ sandAtOrBelow W H L (cellStep W H f row col s) := by
  rw [cellStep_eq]
  split_ifs with h1 h2
  · exact le_refl _
  · apply le_of_eq
    apply sandAtOrBelow_congr
    intro i _
    rw [setProcessed_apply]
    split_ifs with hi
    · rw [hi]
    · rfl
  · rcases chooseDest_spec W H f s row col hrow hcol with h | h
    · exact absurd h h2
    · exact sandAtOrBelow_applyMove W H L s row col _ hrow hcol h

/-! ## The frame counter matters through its parity only -/

theorem preferLeft_parity (f : Nat) (row col : Int) :
    preferLeft f row col = preferLeft (f % 2) row col := by
  unfold preferLeft
  have h : (row + col + (f : Int)) % 4294967296 % 2 =
      (row + col + ((f % 2 : Nat) : Int)) % 4294967296 % 2 := by
    push_cast; omega
  rw [h]

theorem chooseDest_parity (W H f : Nat) (row col : Int) (s : Grid) :
    chooseDest W H f row col s = chooseDest W H (f % 2) row col s := by
  unfold chooseDest
  rw [preferLeft_parity f row col]

theorem cellStep_parity (W H f : Nat) (row col : Int) (s : Grid) :
    cellStep W H f row col s = cellStep W H (f % 2) row col s := by
  unfold cellStep
  rw [chooseDest_parity W H f row col s]

theorem rowOrder_parity (W f : Nat) : rowOrder W f = rowOrder W (f % 2) := by
  unfold rowOrder
  rw [Nat.mod_mod]

theorem tick_parity (W H f : Nat) (g : Grid) : tick W H f g = tick W H (f % 2) g := by
  unfold tick scan scanRow
  rw [rowOrder_parity W f]
  congr 1
  funext s col
  congr 1
  funext t row
  exact cellStep_parity W H f row col t

/-! ## A grid with a single movable cell -/

/-- When the cell at `(x, y)` is the only cell of the grid that is neither Air
nor Wood, a tick is the reset followed by the per-cell step at `(x, y)`. -/
theorem tick_single (W H f : Nat) (g : Grid) (x y : Int)
    (hx : 0 ≤ x ∧ x < W) (hy : 0 ≤ y ∧ y < H)
    (hothers : ∀ row col : Int, 0 ≤ row ∧ row < W → 0 ≤ col ∧ col < H →
      ¬ (row = x ∧ col = y) →
      (g (col * W + row)).type = BLOCK_AIR ∨ (g (col * W + row)).type = BLOCK_WOOD) :
    tick W H f g = cellStep W H f x y (resetProcessed W H g) := by
  have h0 : ∀ row col : Int, 0 ≤ row ∧ row < W → 0 ≤ col ∧ col < H → ¬ (row = x ∧ col = y) →
      Settled (resetProcessed W H g (col * W + row)) := by
    intro row col hrow hcol hne
    right
    rw [resetProcessed_type]
    exact hothers row col hrow hcol hne
  have h1 : ∀ row col : Int, 0 ≤ row ∧ row < W → 0 ≤ col ∧ col < H → ¬ (row = x ∧ col = y) →
      Settled (cellStep W H f x y (resetProcessed W H g) (col * W + row)) :=
    fun row col hrow hcol hne =>
      cellStep_preserves_settled W H f x y _ _ (h0 row col hrow hcol hne)
  have hrowskip : ∀ (s : Grid),
      (∀ row col : Int, 0 ≤ row ∧ row < W → 0 ≤ col ∧ col < H → ¬ (row = x ∧ col = y) →
        Settled (s (col * W + row))) →
      ∀ col ∈ colOrder H, col ≠ y → scanRow W H f col s = s := by
    intro s hs col hcol hne
    unfold scanRow
    apply foldl_skip
    intro row hrow
    exact cellStep_skip W H f row col s
      (hs row col ((mem_rowOrder W f row).1 hrow) ((mem_colOrder H col).1 hcol)
        (fun h => hne h.2))
  have hrowy : scanRow W H f y (resetProcessed W H g) =
      cellStep W H f x y (resetProcessed W H g) := by
    unfold scanRow
    apply foldl_single _ _ x _ (nodup_rowOrder W f) ((mem_rowOrder W f x).2 hx)
    · intro row hrow hne
      exact cellStep_skip W H f row y _
        (h0 row y ((mem_rowOrder W f row).1 hrow) hy (fun h => hne h.1))
    · intro row hrow hne
      exact cellStep_skip W H f row y _
        (h1 row y ((mem_rowOrder W f row).1 hrow) hy (fun h => hne h.1))
  unfold tick scan
  rw [foldl_single _ _ y _ (nodup_colOrder H) ((mem_colOrder H y).2 hy)]
  · exact hrowy
  · exact hrowskip _ h0
  · intro col hcol hne
    rw [hrowy]
    exact hrowskip _ h1 col hcol hne

/-! ## The destination in particular situations -/

theorem under_eq (W H : Nat) (row col : Int) (h : col + 1 < H) :
    under W H row col = (col + 1) * W + row := by
  unfold under; rw [if_pos h]; ring

theorem under_ne (W H : Nat) (row col : Int) (hrow : 0 ≤ row) (hcol : 0 ≤ col)
    (h : col + 1 < H) : under W H row col ≠ -1 := by
  rw [under_eq W H row col h]
  have : 0 ≤ (col + 1) * (W : Int) := mul_nonneg (by omega) (Int.natCast_nonneg W)
  omega

/-- Sand above an Air cell goes straight down. -/
theorem chooseDest_sand_down (W H f : Nat) (s : Grid) (row col : Int)
    (hrow : 0 ≤ row) (hcol : 0 ≤ col) (hH : col + 1 < H)
    (hsand : (s (col * W + row)).type = BLOCK_SAND)
    (hair : (s ((col + 1) * W + row)).type = BLOCK_AIR) :
    chooseDest W H f row col s = (col + 1) * W + row := by
  unfold chooseDest
  simp only []
  rw [if_pos hsand, under_eq W H row col hH, if_pos]
  refine ⟨?_, Or.inl hair⟩
  rw [← under_eq W H row col hH]
  exact under_ne W H row col hrow hcol hH

/-- A liquid with no Air below it and none on either diagonal below falls back
on the slide search, preferred side first. -/
theorem chooseDest_liquid_slide (W H f : Nat) (s : Grid) (row col : Int)
    (hliq : (s (col * W + row)).type = BLOCK_WATER ∨ (s (col * W + row)).type = BLOCK_ACID)
    (hunder : ¬ (under W H row col ≠ -1 ∧ (s (under W H row col)).type = BLOCK_AIR))
    (hleft : ¬ (underLeft W H row col ≠ -1 ∧ (s (underLeft W H row col)).type = BLOCK_AIR))
    (hright : ¬ (underRight W H row col ≠ -1 ∧
      (s (underRight W H row col)).type = BLOCK_AIR)) :
    chooseDest W H f row col s =
      if TrySlide W row col (if preferLeft f row col = true then -1 else 1) s = -1 then
        TrySlide W row col (-(if preferLeft f row col = true then -1 else 1)) s
      else TrySlide W row col (if preferLeft f row col = true then -1 else 1) s := by
  have hns : ¬ (s (col * W + row)).type = BLOCK_SAND := by
    rcases hliq with h | h <;> rw [h] <;> decide
  unfold chooseDest
  simp only []
  rw [if_neg hns, if_pos hliq, if_neg hunder]
  cases hp : preferLeft f row col
  · simp only [Bool.false_eq_true, if_false, if_neg hleft, if_neg hright, if_true]
  · simp only [if_true, if_neg hleft, if_neg hright]

theorem TrySlide_adjacent (W : Nat) (s : Grid) (row col dir : Int)
    (hin : 0 ≤ row + dir ∧ row + dir < W)
    (hair : (s (col * W + (row + dir))).type = BLOCK_AIR) :
    TrySlide W row col dir s = col * W + (row + dir) := by
  unfold TrySlide TrySlideLoop
  simp only []
  rw [if_neg (by omega), hair]
  simp [IsLiquid]

theorem TrySlide_none (W : Nat) (s : Grid) (row col dir : Int)
    (hrow : 0 ≤ row ∧ row < W) (hdir : dir = 1 ∨ dir = -1)
    (hnoair : ∀ k : Nat, 1 ≤ k → k ≤ 8 → 0 ≤ row + k * dir ∧ row + k * dir < W →
      (s (col * W + (row + k * dir))).type ≠ BLOCK_AIR) :
    TrySlide W row col dir s = -1 := by
  unfold TrySlide
  apply (TrySlideLoop_spec W col dir s hdir 8 row hrow.1 hrow.2).2
  intro k hk1 hk8 hl
  exact hnoair k hk1 hk8 hl.1 hl.2.1

theorem preferLeft_iff (f : Nat) (row col : Int) :
    preferLeft f row col = true ↔ (row + col + (f : Int)) % 2 = 0 := by
  unfold preferLeft
  rw [beq_iff_eq]
  omega

/-! ## Free fall of a single Sand cell -/

theorem idx_eq_iff (W : Nat) (r1 c1 r2 c2 : Int) (h1 : 0 ≤ r1 ∧ r1 < W) (h2 : 0 ≤ r2 ∧ r2 < W) :
    c1 * W + r1 = c2 * W + r2 ↔ r1 = r2 ∧ c1 = c2 :=
  ⟨idx_inj W r1 c1 r2 c2 h1 h2, fun h => by rw [h.1, h.2]⟩

theorem WORKING_WIDTH_eq : WORKING_WIDTH = 416 := rfl

theorem WORKING_HEIGHT_eq : WORKING_HEIGHT = 234 := rfl

theorem sand_falls_one (W H f : Nat) (g : Grid) (x y : Int)
    (hx : 0 ≤ x ∧ x < W) (hy : 0 ≤ y) (hH : y + 1 < H)
    (hg : OnlyCell W H g x y BLOCK_SAND) :
    OnlyCell W H (tick W H f g) x (y + 1) BLOCK_SAND := by
  have hyH : 0 ≤ y ∧ y < H := ⟨hy, by omega⟩
  have hy1 : 0 ≤ y + 1 ∧ y + 1 < H := ⟨by omega, hH⟩
  have hpos := hg x y hx hyH
  rw [if_pos ⟨rfl, rfl⟩] at hpos
  have hbelow := hg x (y + 1) hx hy1
  rw [if_neg (by omega)] at hbelow
  rw [tick_single W H f g x y hx hyH (fun row col hrow hcol hne => by
    rw [hg row col hrow hcol, if_neg hne]; exact Or.inl rfl)]
  have hd : chooseDest W H f x y (resetProcessed W H g) = (y + 1) * W + x :=
    chooseDest_sand_down W H f _ x y hx.1 hy hH
      (by rw [resetProcessed_type]; exact hpos) (by rw [resetProcessed_type]; exact hbelow)
  have hdne : (y + 1) * (W : Int) + x ≠ -1 := by
    have := (idx_range W H x (y + 1) hx hy1).1; omega
  rw [cellStep_eq, if_neg, hd, if_neg hdne]
  · intro row col hrow hcol
    rw [applyMove_apply]
    by_cases h1 : row = x ∧ col = y
    · rw [if_pos ((idx_eq_iff W row col x y hrow hx).2 h1), if_neg (by omega)]
      show (resetProcessed W H g ((y + 1) * W + x)).type = BLOCK_AIR
      rw [resetProcessed_type]; exact hbelow
    · rw [if_neg (fun h => h1 ((idx_eq_iff W row col x y hrow hx).1 h))]
      by_cases h2 : row = x ∧ col = y + 1
      · rw [if_pos ((idx_eq_iff W row col x (y + 1) hrow hx).2 h2), if_pos h2]
        show (resetProcessed W H g (y * W + x)).type = BLOCK_SAND
        rw [resetProcessed_type]; exact hpos
      · rw [if_neg (fun h => h2 ((idx_eq_iff W row col x (y + 1) hrow hx).1 h)), if_neg h2,
          resetProcessed_type, hg row col hrow hcol, if_neg h1]
  · rw [resetProcessed_processed W H g _ (idx_range W H x y hx hyH), resetProcessed_type, hpos]
    decide

theorem sand_falls (W H : Nat) (x : Int) (hx : 0 ≤ x ∧ x < W) :
    ∀ (k f : Nat) (g : Grid) (y : Int), 0 ≤ y → y + k < H → OnlyCell W H g x y BLOCK_SAND →
      OnlyCell W H (runTicks W H k f g) x (y + k) BLOCK_SAND := by
  intro k
  induction k with
  | zero =>
    intro f g y _ _ hg
    simpa [runTicks] using hg
  | succ k ih =>
    intro f g y hy hH hg
    have h1 := sand_falls_one W H (nextFrame f) g x y hx hy (by push_cast at hH; omega) hg
    have h2 := ih (nextFrame f) _ (y + 1) (by omega) (by push_cast at hH; omega) h1
    have e : y + 1 + (k : Int) = y + ((k + 1 : Nat) : Int) := by push_cast; ring
    rw [e] at h2
    exact h2

theorem sandGrid_onlyCell : OnlyCell WORKING_WIDTH WORKING_HEIGHT sandGrid 200 100 BLOCK_SAND := by
  intro row col hrow hcol
  rw [WORKING_WIDTH_eq] at hrow ⊢
  unfold sandGrid
  have e : (col * ((416 : Nat) : Int) + row = 100 * 416 + 200) ↔ (row = 200 ∧ col = 100) := by
    push_cast at hrow ⊢; omega
  by_cases h : row = 200 ∧ col = 100
  · rw [if_pos (e.2 h), if_pos h]
  · rw [if_neg (fun h2 => h (e.1 h2)), if_neg h]

/-! ## A single Water cell on a flat Wood floor -/

theorem water_floor_move (W H f : Nat) (g : Grid) (x y d : Int)
    (hx : 0 ≤ x ∧ x < W) (hy : 0 ≤ y) (hH : y + 1 < H)
    (hg : WaterOnFloor W H g x y)
    (hd : d = 1 ∨ d = -1) (hin : 0 ≤ x + d ∧ x + d < W)
    (hpref : (if preferLeft f x y = true then (-1 : Int) else 1) = d) :
    WaterOnFloor W H (tick W H f g) (x + d) y := by
  have hyH : 0 ≤ y ∧ y < H := ⟨hy, by omega⟩
  have hy1 : 0 ≤ y + 1 ∧ y + 1 < H := ⟨by omega, hH⟩
  have hxd : x + d ≠ x := by rcases hd with rfl | rfl <;> omega
  have hpos := hg x y hx hyH
  rw [if_neg (by omega), if_pos ⟨rfl, rfl⟩] at hpos
  have hside := hg (x + d) y hin hyH
  rw [if_neg (by omega), if_neg (fun h => hxd h.1)] at hside
  have hwood : ∀ row : Int, 0 ≤ row ∧ row < W →
      (resetProcessed W H g ((y + 1) * W + row)).type ≠ BLOCK_AIR := by
    intro row hrow
    rw [resetProcessed_type, hg row (y + 1) hrow hy1, if_pos rfl]
    decide
  rw [tick_single W H f g x y hx hyH (fun row col hrow hcol hne => by
    rw [hg row col hrow hcol, if_neg hne]
    split_ifs
    · exact Or.inr rfl
    · exact Or.inl rfl)]
  have hdest : chooseDest W H f x y (resetProcessed W H g) = y * W + (x + d) := by
    rw [chooseDest_liquid_slide W H f _ x y (Or.inl (by rw [resetProcessed_type]; exact hpos))]
    · rw [hpref, TrySlide_adjacent W _ x y d hin (by rw [resetProcessed_type]; exact hside)]
      rw [if_neg]
      have := (idx_range W H (x + d) y hin hyH).1
      omega
    · rintro ⟨hne, hair⟩
      obtain ⟨_, he⟩ := under_spec W H x y hx.1 hy hne
      rw [he] at hair
      exact hwood x hx hair
    · rintro ⟨hne, hair⟩
      obtain ⟨_, h0, he⟩ := underLeft_spec W H x y hx.1 hy hne
      rw [he] at hair
      exact hwood (x - 1) ⟨by omega, by omega⟩ hair
    · rintro ⟨hne, hair⟩
      obtain ⟨_, h0, he⟩ := underRight_spec W H x y hx.1 hy hne
      rw [he] at hair
      exact hwood (x + 1) ⟨by omega, by omega⟩ hair
  have hdne : y * (W : Int) + (x + d) ≠ -1 := by
    have := (idx_range W H (x + d) y hin hyH).1; omega
  rw [cellStep_eq, if_neg, hdest, if_neg hdne]
  · intro row col hrow hcol
    rw [applyMove_apply]
    by_cases h1 : row = x ∧ col = y
    · rw [if_pos ((idx_eq_iff W row col x y hrow hx).2 h1), if_neg (by omega),
        if_neg (by omega)]
      show (resetProcessed W H g (y * W + (x + d))).type = BLOCK_AIR
      rw [resetProcessed_type]; exact hside
    · rw [if_neg (fun h => h1 ((idx_eq_iff W row col x y hrow hx).1 h))]
      by_cases h2 : row = x + d ∧ col = y
      · rw [if_pos ((idx_eq_iff W row col (x + d) y hrow hin).2 h2), if_neg (by omega),
          if_pos h2]
        show (resetProcessed W H g (y * W + x)).type = BLOCK_WATER
        rw [resetProcessed_type]; exact hpos
      · rw [if_neg (fun h => h2 ((idx_eq_iff W row col (x + d) y hrow hin).1 h)),
          resetProcessed_type, hg row col hrow hcol, if_neg h1, if_neg h2]
  · rw [resetProcessed_processed W H g _ (idx_range W H x y hx hyH), resetProcessed_type, hpos]
    decide

/-- One tick on a single Water cell lying on a flat floor: the Water moves one
cell sideways on its own level, to the left when `x + y + f` is even and to the
right when it is odd. -/
theorem water_floor_step (W H f : Nat) (g : Grid) (x y : Int)
    (hx : 0 < x ∧ x < (W : Int) - 1) (hy : 0 ≤ y ∧ y + 1 < H)
    (hg : WaterOnFloor W H g x y) :
    ((x + y + (f : Int)) % 2 = 0 → WaterOnFloor W H (tick W H f g) (x - 1) y) ∧
    ((x + y + (f : Int)) % 2 ≠ 0 → WaterOnFloor W H (tick W H f g) (x + 1) y) := by
  constructor
  · intro hp
    have hpl : preferLeft f x y = true := (preferLeft_iff f x y).2 hp
    have e : x - 1 = x + -1 := by ring
    rw [e]
    exact water_floor_move W H f g x y (-1) ⟨by omega, by omega⟩ hy.1 hy.2 hg (Or.inr rfl)
      ⟨by omega, by omega⟩ (by rw [if_pos hpl])
  · intro hp
    have hpl : ¬ preferLeft f x y = true := fun h => hp ((preferLeft_iff f x y).1 h)
    exact water_floor_move W H f g x y 1 ⟨by omega, by omega⟩ hy.1 hy.2 hg (Or.inl rfl)
      ⟨by omega, by omega⟩ (by rw [if_neg hpl])

/-- In a grid with a single Water cell on a floor, Water is found only there. -/
theorem waterOnFloor_unique (W H : Nat) (g : Grid) (x y x2 : Int) (hy : 0 ≤ y ∧ y < H)
    (hg : WaterOnFloor W H g x y) (hw : WaterAt W g x2 y) : x2 = x := by
  have h := hg x2 y hw.1 hy
  rw [hw.2, if_neg (by omega)] at h
  by_contra hne
  rw [if_neg (fun h2 => hne h2.1)] at h
  exact absurd h (by decide)

theorem waterOnFloor_waterAt (W H : Nat) (g : Grid) (x y : Int) (hx : 0 ≤ x ∧ x < W)
    (hy : 0 ≤ y ∧ y < H) (hg : WaterOnFloor W H g x y) : WaterAt W g x y := by
  refine ⟨hx, ?_⟩
  rw [hg x y hx hy, if_neg (by omega), if_pos ⟨rfl, rfl⟩]

theorem floorGrid_waterOnFloor :
    WaterOnFloor WORKING_WIDTH WORKING_HEIGHT floorGrid 200 100 := by
  intro row col hrow hcol
  rw [WORKING_WIDTH_eq] at hrow ⊢
  push_cast at hrow ⊢
  unfold floorGrid
  by_cases h1 : col = 101
  · rw [if_pos (by omega), if_pos h1]
  · rw [if_neg (by omega), if_neg h1]
    by_cases h2 : row = 200 ∧ col = 100
    · rw [if_pos (by omega), if_pos h2]
    · rw [if_neg (by omega), if_neg h2]

/-- Two consecutive ticks on a single Water cell lying on a flat floor: the
Water moves one cell sideways on each tick, both times to the same side. -/
theorem water_floor_two_steps (W H f : Nat) (g : Grid) (x y : Int)
    (hx : 2 ≤ x ∧ x ≤ (W : Int) - 3) (hy : 0 ≤ y ∧ y + 1 < H)
    (hg : WaterOnFloor W H g x y) :
    ((x + y + (f : Int)) % 2 = 0 →
      WaterOnFloor W H (tick W H f g) (x - 1) y ∧
      WaterOnFloor W H (tick W H (nextFrame f) (tick W H f g)) (x - 2) y) ∧
    ((x + y + (f : Int)) % 2 ≠ 0 →
      WaterOnFloor W H (tick W H f g) (x + 1) y ∧
      WaterOnFloor W H (tick W H (nextFrame f) (tick W H f g)) (x + 2) y) := by
  obtain ⟨hl, hr⟩ := water_floor_step W H f g x y ⟨by omega, by omega⟩ hy hg
  constructor
  · intro hp
    have h1 := hl hp
    have hp2 : (x - 1 + y + ((nextFrame f : Nat) : Int)) % 2 = 0 := by
      unfold nextFrame; push_cast; omega
    have h2 := (water_floor_step W H (nextFrame f) _ (x - 1) y ⟨by omega, by omega⟩ hy h1).1 hp2
    have e : x - 1 - 1 = x - 2 := by ring
    rw [e] at h2
    exact ⟨h1, h2⟩
  · intro hp
    have h1 := hr hp
    have hp2 : (x + 1 + y + ((nextFrame f : Nat) : Int)) % 2 ≠ 0 := by
      unfold nextFrame; push_cast; omega
    have h2 := (water_floor_step W H (nextFrame f) _ (x + 1) y ⟨by omega, by omega⟩ hy h1).2 hp2
    have e : x + 1 + 1 = x + 2 := by ring
    rw [e] at h2
    exact ⟨h1, h2⟩

/-- Claim C1 (mass conservation): for every grid and every frame counter, the
multiset of the materials held by the cells of the grid after one update tick
(reset and full scan) is the multiset before the tick; in particular the number
of cells of each material is unchanged. -/
theorem tick_conserves_materials (W H : Nat) (frameCounter : Nat) (g : Grid) :
    materials W H (tick W H frameCounter g) = materials W H g ∧
    ∀ m : BlockType, (materials W H (tick W H frameCounter g)).count m =
      (materials W H g).count m := by
  have h : materials W H (tick W H frameCounter g) = materials W H g := by
    unfold tick
    apply scan_invariant W H frameCounter (fun s => materials W H s = materials W H g)
    · intro row col s hrow hcol hs
      rw [cellStep_materials W H frameCounter row col s hrow hcol]; exact hs
    · exact resetProcessed_materials W H g
  exact ⟨h, fun m => by rw [h]⟩

/-- Claim C2 (slide search, reference behaviour): for every grid, every in-grid
start and `dir` in `{+1, -1}`, `TrySlide` returns `col * W + (startRow + k * dir)`
for the smallest `k` in `1 .. 8` such that `startRow + k * dir` lies in `[0, W)`,
the cell at step `k` is Air and the cells at the steps `1 .. k - 1` are liquid;
it returns `-1` exactly when there is no such `k`. -/
theorem TrySlide_reference (W H : Nat) (state : Grid) (startRow col dir : Int)
    (hrow : 0 ≤ startRow ∧ startRow < W) (hcol : 0 ≤ col ∧ col < H)
    (hdir : dir = 1 ∨ dir = -1) :
    (∀ k : Nat, 1 ≤ k → k ≤ 8 → SlideLands W startRow col dir state k →
        (∀ j : Nat, 1 ≤ j → j < k → ¬ SlideLands W startRow col dir state j) →
        TrySlide W startRow col dir state = col * W + (startRow + k * dir)) ∧
    (TrySlide W startRow col dir state = -1 ↔
        ¬ ∃ k : Nat, 1 ≤ k ∧ k ≤ 8 ∧ SlideLands W startRow col dir state k) := by
  obtain ⟨h1, h2⟩ := TrySlideLoop_spec W col dir state hdir 8 startRow hrow.1 hrow.2
  refine ⟨fun k hk1 hk8 hl _ => h1 k hk1 hk8 hl, ?_, ?_⟩
  · rintro hres ⟨k, hk1, hk8, hl⟩
    have he := h1 k hk1 hk8 hl
    have hge := (idx_range W H (startRow + k * dir) col hl.1 hcol).1
    unfold TrySlide at hres
    omega
  · intro hno
    apply h2
    intro k hk1 hk8 hl
    exact hno ⟨k, hk1, hk8, hl⟩

/-- An instance of claim C2 on the program's grid: the slide to the right from
the Water at `(200, 100)` of a run of Water 17 cells wide, whose nearest Air is
9 cells away. -/
theorem TrySlide_reference_witness :
    (∀ k : Nat, 1 ≤ k → k ≤ 8 → SlideLands WORKING_WIDTH 200 100 1 blockedGrid k →
        (∀ j : Nat, 1 ≤ j → j < k → ¬ SlideLands WORKING_WIDTH 200 100 1 blockedGrid j) →
        TrySlide WORKING_WIDTH 200 100 1 blockedGrid =
          100 * (WORKING_WIDTH : Int) + (200 + k * 1)) ∧
    (TrySlide WORKING_WIDTH 200 100 1 blockedGrid = -1 ↔
        ¬ ∃ k : Nat, 1 ≤ k ∧ k ≤ 8 ∧ SlideLands WORKING_WIDTH 200 100 1 blockedGrid k) :=
  TrySlide_reference WORKING_WIDTH WORKING_HEIGHT blockedGrid 200 100 1
    (by decide) (by decide) (by decide)

/-- Claim C3 (slide bound): for every grid, every in-grid start and `dir` in
`{+1, -1}`, a destination returned by `TrySlide` (a value other than `-1`) lies
on the level of the start, its horizontal coordinate is within `[0, W)`, and it
is at least 1 and at most 8 horizontal steps from the start. -/
theorem TrySlide_bound (W H : Nat) (state : Grid) (startRow col dir : Int)
    (hrow : 0 ≤ startRow ∧ startRow < W) (hcol : 0 ≤ col ∧ col < H)
    (hdir : dir = 1 ∨ dir = -1)
    (hdest : TrySlide W startRow col dir state ≠ -1) :
    ∃ destRow : Int, TrySlide W startRow col dir state = col * W + destRow ∧
      (0 ≤ destRow ∧ destRow < W) ∧
      (1 ≤ |destRow - startRow| ∧ |destRow - startRow| ≤ 8) ∧
      (0 ≤ TrySlide W startRow col dir state ∧
        TrySlide W startRow col dir state < ((W * H : Nat) : Int)) := by
  obtain ⟨r, he, hr, hd, _⟩ :=
    validMove_slide_row W H state startRow col dir hrow hcol hdir hdest
  exact ⟨r, he, hr, hd, by rw [he]; exact idx_range W H r col hr hcol⟩

/-- An instance of claim C3 on the program's grid: the slide to the right from
the Water at `(200, 100)` lying alone on a Wood floor. -/
theorem TrySlide_bound_witness :
    TrySlide WORKING_WIDTH 200 100 1 floorGrid ≠ -1 ∧
    ∃ destRow : Int,
      TrySlide WORKING_WIDTH 200 100 1 floorGrid = 100 * (WORKING_WIDTH : Int) + destRow ∧
      (0 ≤ destRow ∧ destRow < (WORKING_WIDTH : Int)) ∧
      (1 ≤ |destRow - 200| ∧ |destRow - 200| ≤ 8) ∧
      (0 ≤ TrySlide WORKING_WIDTH 200 100 1 floorGrid ∧
        TrySlide WORKING_WIDTH 200 100 1 floorGrid <
          ((WORKING_WIDTH * WORKING_HEIGHT : Nat) : Int)) :=
  ⟨by decide,
    TrySlide_bound WORKING_WIDTH WORKING_HEIGHT floorGrid 200 100 1
      (by decide) (by decide) (by decide) (by decide)⟩

/-- Claim C4 as amended (processed coverage): for every grid and frame counter,
at the end of one update tick every cell of the grid that holds a material
other than Air and Wood has its processed flag equal to true. -/
theorem tick_processed_coverage (W H : Nat) (frameCounter : Nat) (g : Grid) (i : Int)
    (hi : 0 ≤ i ∧ i < ((W * H : Nat) : Int)) :
    (tick W H frameCounter g i).processed = true ∨
      (tick W H frameCounter g i).type = BLOCK_AIR ∨
      (tick W H frameCounter g i).type = BLOCK_WOOD :=
  scan_settles W H frameCounter (resetProcessed W H g) i hi

/-- An instance of the amended claim C4: the first cell of the program's grid
after the first tick from the initial state. -/
theorem tick_processed_coverage_witness :
    (0 ≤ (0 : Int) ∧ (0 : Int) < ((WORKING_WIDTH * WORKING_HEIGHT : Nat) : Int)) ∧
    ((tick WORKING_WIDTH WORKING_HEIGHT 1 initialGrid 0).processed = true ∨
      (tick WORKING_WIDTH WORKING_HEIGHT 1 initialGrid 0).type = BLOCK_AIR ∨
      (tick WORKING_WIDTH WORKING_HEIGHT 1 initialGrid 0).type = BLOCK_WOOD) :=
  ⟨by decide, tick_processed_coverage WORKING_WIDTH WORKING_HEIGHT 1 initialGrid 0 (by decide)⟩

/-- Claim C4 as stated fails: on the program's 416 by 234 grid, after the first
tick (frame counter 1) from the all-Air initial state, not every cell has its
processed flag set; the Air cells are skipped before the flag is written. -/
theorem tick_processed_coverage_fails :
    ¬ (∀ i : Int, 0 ≤ i ∧ i < ((WORKING_WIDTH * WORKING_HEIGHT : Nat) : Int) →
        (tick WORKING_WIDTH WORKING_HEIGHT 1 initialGrid i).processed = true) := by
  intro h
  have h0 := h 0 (by decide)
  unfold tick at h0
  rw [scan_skip] at h0
  · rw [resetProcessed_processed _ _ _ _ (by decide)] at h0
    exact absurd h0 (by decide)
  · intro i _
    right; left
    rw [resetProcessed_type]
    rfl

/-- Claim C5 (sand monotonicity): for every grid, frame counter and vertical
level `L`, the number of Sand cells at level `L` or lower on screen (vertical
index at least `L`) after one tick is at least the number before the tick; and
no move transfers Sand to a smaller vertical index: whenever the per-cell rule
chooses a destination, the material at the destination (which the exchange
brings to the source) is not Sand, and Sand at the source goes to a cell of the
level below. -/
theorem tick_sand_monotone (W H : Nat) (frameCounter : Nat) (g : Grid) :
    (∀ L : Nat, sandAtOrBelow W H L g ≤ sandAtOrBelow W H L (tick W H frameCounter g)) ∧
    (∀ (s : Grid) (row col : Int), 0 ≤ row ∧ row < W → 0 ≤ col ∧ col < H →
      chooseDest W H frameCounter row col s ≠ -1 →
        (s (chooseDest W H frameCounter row col s)).type ≠ BLOCK_SAND ∧
        ((s (col * W + row)).type = BLOCK_SAND →
          ∃ destRow : Int, (0 ≤ destRow ∧ destRow < W) ∧ col + 1 < H ∧
            chooseDest W H frameCounter row col s = (col + 1) * W + destRow)) := by
  constructor
  · intro L
    unfold tick
    apply scan_invariant W H frameCounter
      (fun s => sandAtOrBelow W H L g ≤ sandAtOrBelow W H L s)
    · intro row col s hrow hcol hs
      exact le_trans hs (sandAtOrBelow_cellStep W H frameCounter L row col s hrow hcol)
    · exact le_of_eq (sandAtOrBelow_congr W H L _ _
        (fun i _ => (resetProcessed_type W H g i).symm))
  · intro s row col hrow hcol hne
    rcases chooseDest_spec W H frameCounter s row col hrow hcol with h | h
    · exact absurd h hne
    · exact validMove_sand W H s row col _ h

/-- Claim C6 (determinism up to tick parity): for every grid and every two
frame-counter values of the same parity, one update tick with the one and one
with the other produce the same grid: the same material and the same processed
flag in every cell. -/
theorem tick_deterministic_parity (W H : Nat) (g : Grid) (f1 f2 : Nat)
    (hparity : f1 % 2 = f2 % 2) :
    tick W H f1 g = tick W H f2 g ∧
    ∀ i : Int, (tick W H f1 g i).type = (tick W H f2 g i).type ∧
      (tick W H f1 g i).processed = (tick W H f2 g i).processed := by
  have h : tick W H f1 g = tick W H f2 g := by
    rw [tick_parity W H f1 g, tick_parity W H f2 g, hparity]
  exact ⟨h, fun i => by rw [h]; exact ⟨rfl, rfl⟩⟩

/-- An instance of claim C6: the frame counters 1 and `2 ^ 32 - 1` on the
program's grid in its initial state. -/
theorem tick_deterministic_parity_witness :
    tick WORKING_WIDTH WORKING_HEIGHT 1 initialGrid =
      tick WORKING_WIDTH WORKING_HEIGHT 4294967295 initialGrid ∧
    ∀ i : Int,
      (tick WORKING_WIDTH WORKING_HEIGHT 1 initialGrid i).type =
        (tick WORKING_WIDTH WORKING_HEIGHT 4294967295 initialGrid i).type ∧
      (tick WORKING_WIDTH WORKING_HEIGHT 1 initialGrid i).processed =
        (tick WORKING_WIDTH WORKING_HEIGHT 4294967295 initialGrid i).processed :=
  tick_deterministic_parity WORKING_WIDTH WORKING_HEIGHT initialGrid 1 4294967295 (by decide)

/-- Claim C7 (free fall): for every grid whose only non-Air cell is a Sand cell
at horizontal position `x` and vertical level `y` with `y + 5 ≤ H - 1`, and for
every starting frame counter, after `k` consecutive ticks, for each `k` from 0
to 5, the only non-Air cell of the grid is Sand at `(x, y + k)`: one level per
tick, no lateral displacement, level `y + 5` after exactly 5 ticks. -/
theorem sand_free_fall (W H : Nat) (g : Grid) (x y : Int) (frameCounter : Nat)
    (hx : 0 ≤ x ∧ x < W) (hy : 0 ≤ y) (hroom : y + 5 ≤ (H : Int) - 1)
    (hg : OnlyCell W H g x y BLOCK_SAND) (k : Nat) (hk : k ≤ 5) :
    OnlyCell W H (runTicks W H k frameCounter g) x (y + k) BLOCK_SAND :=
  sand_falls W H x hx k frameCounter g y hy (by omega) hg

/-- An instance of claim C7 on the program's grid: Sand at `(200, 100)`, five
ticks from the frame counter 0. -/
theorem sand_free_fall_witness :
    OnlyCell WORKING_WIDTH WORKING_HEIGHT sandGrid 200 100 BLOCK_SAND ∧
    OnlyCell WORKING_WIDTH WORKING_HEIGHT
      (runTicks WORKING_WIDTH WORKING_HEIGHT 5 0 sandGrid) 200 (100 + (5 : Nat)) BLOCK_SAND :=
  ⟨sandGrid_onlyCell,
    sand_free_fall WORKING_WIDTH WORKING_HEIGHT sandGrid 200 100 0 (by decide) (by decide)
      (by decide) sandGrid_onlyCell 5 (by decide)⟩

/-- Claim C8 (blocked slide): for an unprocessed Water or Acid cell at `(x, y)`
whose below, below-left and below-right cells are absent or not Air and for
which no in-grid cell within 8 horizontal steps on either side at level `y` is
Air, the per-cell rule finds no destination: the material stays at `(x, y)`,
no other cell changes, and only the processed flag of the source is set. -/
theorem blocked_liquid_stays (W H : Nat) (frameCounter : Nat) (s : Grid) (x y : Int)
    (hx : 0 ≤ x ∧ x < W) (hy : 0 ≤ y ∧ y < H)
    (hunprocessed : (s (y * W + x)).processed = false)
    (hliquid : (s (y * W + x)).type = BLOCK_WATER ∨ (s (y * W + x)).type = BLOCK_ACID)
    (hbelow : y + 1 < H → (s ((y + 1) * W + x)).type ≠ BLOCK_AIR)
    (hbelowLeft : y + 1 < H → 0 < x → (s ((y + 1) * W + (x - 1))).type ≠ BLOCK_AIR)
    (hbelowRight : y + 1 < H → x < (W : Int) - 1 →
      (s ((y + 1) * W + (x + 1))).type ≠ BLOCK_AIR)
    (hsides : ∀ d : Int, 1 ≤ |d| → |d| ≤ 8 → 0 ≤ x + d ∧ x + d < W →
      (s (y * W + (x + d))).type ≠ BLOCK_AIR) :
    chooseDest W H frameCounter x y s = -1 ∧
    cellStep W H frameCounter x y s (y * W + x) = ⟨(s (y * W + x)).type, true⟩ ∧
    ∀ i : Int, i ≠ y * W + x → cellStep W H frameCounter x y s i = s i := by
  have hslide : ∀ dir : Int, dir = 1 ∨ dir = -1 → TrySlide W x y dir s = -1 := by
    intro dir hdir
    apply TrySlide_none W s x y dir hx hdir
    intro k hk1 hk8 hin
    apply hsides (k * dir) _ _ hin
    · rcases hdir with rfl | rfl
      · rw [mul_one, abs_of_nonneg (by omega)]; omega
      · rw [mul_neg, mul_one, abs_neg, abs_of_nonneg (by omega)]; omega
    · rcases hdir with rfl | rfl
      · rw [mul_one, abs_of_nonneg (by omega)]; omega
      · rw [mul_neg, mul_one, abs_neg, abs_of_nonneg (by omega)]; omega
  have hdest : chooseDest W H frameCounter x y s = -1 := by
    rw [chooseDest_liquid_slide W H frameCounter s x y hliquid]
    · rw [if_pos (hslide _ (by split_ifs <;> simp))]
      exact hslide _ (by split_ifs <;> simp)
    · rintro ⟨hne, hair⟩
      obtain ⟨hH, he⟩ := under_spec W H x y hx.1 hy.1 hne
      rw [he] at hair
      exact hbelow hH hair
    · rintro ⟨hne, hair⟩
      obtain ⟨hH, h0, he⟩ := underLeft_spec W H x y hx.1 hy.1 hne
      rw [he] at hair
      exact hbelowLeft hH h0 hair
    · rintro ⟨hne, hair⟩
      obtain ⟨hH, h0, he⟩ := underRight_spec W H x y hx.1 hy.1 hne
      rw [he] at hair
      exact hbelowRight hH h0 hair
  have hstep : cellStep W H frameCounter x y s = setProcessed s (y * W + x) := by
    rw [cellStep_eq, if_neg, if_pos hdest]
    rw [hunprocessed]
    rcases hliquid with h | h <;> rw [h] <;> decide
  refine ⟨hdest, ?_, ?_⟩
  · rw [hstep, setProcessed_apply, if_pos rfl]
  · intro i hi
    rw [hstep, setProcessed_apply, if_neg hi]

theorem blockedGrid_type (i : Int) :
    (blockedGrid i).type =
      if 101 * 416 ≤ i ∧ i < 102 * 416 then BLOCK_WOOD
      else if 100 * 416 + 192 ≤ i ∧ i ≤ 100 * 416 + 208 then BLOCK_WATER else BLOCK_AIR := by
  unfold blockedGrid
  split_ifs <;> rfl

theorem blockedGrid_sides (d : Int) (_h1 : 1 ≤ |d|) (h8 : |d| ≤ 8)
    (_hin : 0 ≤ (200 : Int) + d ∧ (200 : Int) + d < (WORKING_WIDTH : Int)) :
    (blockedGrid (100 * (WORKING_WIDTH : Int) + (200 + d))).type ≠ BLOCK_AIR := by
  rw [abs_le] at h8
  rw [blockedGrid_type, WORKING_WIDTH_eq]
  push_cast
  rw [if_neg (by omega), if_pos (by omega)]
  decide

theorem blockedGrid_below (p : Int) (hp : 199 ≤ p ∧ p ≤ 201) :
    (blockedGrid ((100 + 1) * (WORKING_WIDTH : Int) + p)).type ≠ BLOCK_AIR := by
  rw [blockedGrid_type, WORKING_WIDTH_eq]
  push_cast
  rw [if_pos (by omega)]
  decide

theorem blockedGrid_source :
    blockedGrid (100 * (WORKING_WIDTH : Int) + 200) = ⟨BLOCK_WATER, false⟩ := by
  rw [WORKING_WIDTH_eq]; rfl

/-- An instance of claim C8 on the program's grid: the Water at `(200, 100)` of
a run of Water 17 cells wide lying on a Wood floor, Air 9 cells away on both
sides. -/
theorem blocked_liquid_stays_witness :
    chooseDest WORKING_WIDTH WORKING_HEIGHT 1 200 100 blockedGrid = -1 ∧
    cellStep WORKING_WIDTH WORKING_HEIGHT 1 200 100 blockedGrid
        (100 * (WORKING_WIDTH : Int) + 200) =
      ⟨(blockedGrid (100 * (WORKING_WIDTH : Int) + 200)).type, true⟩ ∧
    ∀ i : Int, i ≠ 100 * (WORKING_WIDTH : Int) + 200 →
      cellStep WORKING_WIDTH WORKING_HEIGHT 1 200 100 blockedGrid i = blockedGrid i :=
  blocked_liquid_stays WORKING_WIDTH WORKING_HEIGHT 1 blockedGrid 200 100 (by decide) (by decide)
    (by rw [blockedGrid_source]) (by rw [blockedGrid_source]; decide)
    (fun _ => blockedGrid_below 200 (by decide))
    (fun _ _ => blockedGrid_below (200 - 1) (by decide))
    (fun _ _ => blockedGrid_below (200 + 1) (by decide))
    blockedGrid_sides

/-- Claim C9 as amended (liquid leveling, first tick): for a grid in which the
level `y + 1` is entirely Wood and the only other non-Air cell is a Water cell
at `(x, y)` with `0 < x < W - 1`, and for every frame counter, after one tick the
Water has left `(x, y)`, which now holds Air, and occupies one of the two
horizontal neighbours `(x - 1, y)` or `(x + 1, y)` of its starting cell: the left
one when `x + y + frameCounter` is even, the right one when it is odd. -/
theorem water_leveling_first_tick (W H : Nat) (frameCounter : Nat) (g : Grid) (x y : Int)
    (hx : 0 < x ∧ x < (W : Int) - 1) (hy : 0 ≤ y ∧ y + 1 < H)
    (hg : WaterOnFloor W H g x y) :
    (tick W H frameCounter g (y * W + x)).type = BLOCK_AIR ∧
    (WaterAt W (tick W H frameCounter g) (x - 1) y ∨
      WaterAt W (tick W H frameCounter g) (x + 1) y) ∧
    ((x + y + (frameCounter : Int)) % 2 = 0 →
      WaterOnFloor W H (tick W H frameCounter g) (x - 1) y) ∧
    ((x + y + (frameCounter : Int)) % 2 ≠ 0 →
      WaterOnFloor W H (tick W H frameCounter g) (x + 1) y) := by
  obtain ⟨hl, hr⟩ := water_floor_step W H frameCounter g x y hx hy hg
  have hyH : 0 ≤ y ∧ y < H := ⟨hy.1, by omega⟩
  have hxW : 0 ≤ x ∧ x < W := ⟨by omega, by omega⟩
  refine ⟨?_, ?_, hl, hr⟩
  · by_cases hp : (x + y + (frameCounter : Int)) % 2 = 0
    · rw [hl hp x y hxW hyH, if_neg (by omega), if_neg (by omega)]
    · rw [hr hp x y hxW hyH, if_neg (by omega), if_neg (by omega)]
  · by_cases hp : (x + y + (frameCounter : Int)) % 2 = 0
    · exact Or.inl (waterOnFloor_waterAt W H _ _ y ⟨by omega, by omega⟩ hyH (hl hp))
    · exact Or.inr (waterOnFloor_waterAt W H _ _ y ⟨by omega, by omega⟩ hyH (hr hp))

/-- An instance of the amended claim C9 on the program's grid: Water at
`(200, 100)` on a floor at level 101, frame counter 1. -/
theorem water_leveling_first_tick_witness :
    WaterOnFloor WORKING_WIDTH WORKING_HEIGHT floorGrid 200 100 ∧
    (tick WORKING_WIDTH WORKING_HEIGHT 1 floorGrid (100 * (WORKING_WIDTH : Int) + 200)).type =
      BLOCK_AIR ∧
    (WaterAt WORKING_WIDTH (tick WORKING_WIDTH WORKING_HEIGHT 1 floorGrid) (200 - 1) 100 ∨
      WaterAt WORKING_WIDTH (tick WORKING_WIDTH WORKING_HEIGHT 1 floorGrid) (200 + 1) 100) ∧
    ((200 + 100 + ((1 : Nat) : Int)) % 2 = 0 →
      WaterOnFloor WORKING_WIDTH WORKING_HEIGHT
        (tick WORKING_WIDTH WORKING_HEIGHT 1 floorGrid) (200 - 1) 100) ∧
    ((200 + 100 + ((1 : Nat) : Int)) % 2 ≠ 0 →
      WaterOnFloor WORKING_WIDTH WORKING_HEIGHT
        (tick WORKING_WIDTH WORKING_HEIGHT 1 floorGrid) (200 + 1) 100) :=
  ⟨floorGrid_waterOnFloor,
    water_leveling_first_tick WORKING_WIDTH WORKING_HEIGHT 1 floorGrid 200 100
      (by decide) (by decide) floorGrid_waterOnFloor⟩

/-- Claim C9 as stated fails: on the program's grid, with Water at `(200, 100)`
on a Wood floor at level 101 and the frame counter 1, the Water does not
occupy a diagonal position after the tick; both diagonal cells are Wood of the
floor and the Water has moved sideways. -/
theorem water_leveling_diagonal_fails :
    WaterOnFloor WORKING_WIDTH WORKING_HEIGHT floorGrid 200 100 ∧
    ¬ OccupiesDiagonal WORKING_WIDTH
      (tick WORKING_WIDTH WORKING_HEIGHT 1 floorGrid) 200 100 := by
  refine ⟨floorGrid_waterOnFloor, ?_⟩
  have h := (water_floor_step WORKING_WIDTH WORKING_HEIGHT 1 floorGrid 200 100
    (by decide) (by decide) floorGrid_waterOnFloor).2 (by decide)
  rintro ⟨_, hd | hd⟩
  · rw [h (200 - 1) (100 + 1) (by decide) (by decide), if_pos rfl] at hd
    exact absurd hd (by decide)
  · rw [h (200 + 1) (100 + 1) (by decide) (by decide), if_pos rfl] at hd
    exact absurd hd (by decide)

/-- Claim C10 as amended (lateral direction over two ticks): for a grid in which
the level `y + 1` is entirely Wood and the only other non-Air cell is a Water
cell at `(x, y)` at least 2 cells away from both the left and the right edge,
and for every frame counter `f`, the Water moves one cell sideways on each of
the two consecutive ticks (frame counters `f` and its successor), both times in
the same direction: to the left twice when `x + y + f` is even, to the right
twice when it is odd. -/
theorem water_same_direction (W H : Nat) (frameCounter : Nat) (g : Grid) (x y : Int)
    (hx : 2 ≤ x ∧ x ≤ (W : Int) - 3) (hy : 0 ≤ y ∧ y + 1 < H)
    (hg : WaterOnFloor W H g x y) :
    ((x + y + (frameCounter : Int)) % 2 = 0 →
      WaterOnFloor W H (tick W H frameCounter g) (x - 1) y ∧
      WaterOnFloor W H (tick W H (nextFrame frameCounter) (tick W H frameCounter g)) (x - 2) y) ∧
    ((x + y + (frameCounter : Int)) % 2 ≠ 0 →
      WaterOnFloor W H (tick W H frameCounter g) (x + 1) y ∧
      WaterOnFloor W H (tick W H (nextFrame frameCounter) (tick W H frameCounter g)) (x + 2) y) ∧
    (∃ x1 x2 : Int, WaterAt W (tick W H frameCounter g) x1 y ∧
      WaterAt W (tick W H (nextFrame frameCounter) (tick W H frameCounter g)) x2 y ∧
      ((x2 < x1 ∧ x1 < x) ∨ (x < x1 ∧ x1 < x2))) := by
  obtain ⟨hl, hr⟩ := water_floor_two_steps W H frameCounter g x y hx hy hg
  have hyH : 0 ≤ y ∧ y < H := ⟨hy.1, by omega⟩
  refine ⟨hl, hr, ?_⟩
  by_cases hp : (x + y + (frameCounter : Int)) % 2 = 0
  · exact ⟨x - 1, x - 2,
      waterOnFloor_waterAt W H _ _ y ⟨by omega, by omega⟩ hyH (hl hp).1,
      waterOnFloor_waterAt W H _ _ y ⟨by omega, by omega⟩ hyH (hl hp).2,
      Or.inl ⟨by omega, by omega⟩⟩
  · exact ⟨x + 1, x + 2,
      waterOnFloor_waterAt W H _ _ y ⟨by omega, by omega⟩ hyH (hr hp).1,
      waterOnFloor_waterAt W H _ _ y ⟨by omega, by omega⟩ hyH (hr hp).2,
      Or.inr ⟨by omega, by omega⟩⟩

/-- An instance of the amended claim C10 on the program's grid: Water at
`(200, 100)` on a floor at level 101, frame counters 1 and 2. -/
theorem water_same_direction_witness :
    WaterOnFloor WORKING_WIDTH WORKING_HEIGHT floorGrid 200 100 ∧
    (((200 + 100 + ((1 : Nat) : Int)) % 2 = 0 →
      WaterOnFloor WORKING_WIDTH WORKING_HEIGHT
        (tick WORKING_WIDTH WORKING_HEIGHT 1 floorGrid) (200 - 1) 100 ∧
      WaterOnFloor WORKING_WIDTH WORKING_HEIGHT
        (tick WORKING_WIDTH WORKING_HEIGHT (nextFrame 1)
          (tick WORKING_WIDTH WORKING_HEIGHT 1 floorGrid)) (200 - 2) 100) ∧
    ((200 + 100 + ((1 : Nat) : Int)) % 2 ≠ 0 →
      WaterOnFloor WORKING_WIDTH WORKING_HEIGHT
        (tick WORKING_WIDTH WORKING_HEIGHT 1 floorGrid) (200 + 1) 100 ∧
      WaterOnFloor WORKING_WIDTH WORKING_HEIGHT
        (tick WORKING_WIDTH WORKING_HEIGHT (nextFrame 1)
          (tick WORKING_WIDTH WORKING_HEIGHT 1 floorGrid)) (200 + 2) 100) ∧
    (∃ x1 x2 : Int, WaterAt WORKING_WIDTH (tick WORKING_WIDTH WORKING_HEIGHT 1 floorGrid) x1 100 ∧
      WaterAt WORKING_WIDTH
        (tick WORKING_WIDTH WORKING_HEIGHT (nextFrame 1)
          (tick WORKING_WIDTH WORKING_HEIGHT 1 floorGrid)) x2 100 ∧
      ((x2 < x1 ∧ x1 < 200) ∨ (200 < x1 ∧ x1 < x2)))) :=
  ⟨floorGrid_waterOnFloor,
    water_same_direction WORKING_WIDTH WORKING_HEIGHT 1 floorGrid 200 100
      (by decide) (by decide) floorGrid_waterOnFloor⟩

/-- Claim C10 as stated fails: on the program's grid, with Water at `(200, 100)`
on a Wood floor at level 101, the moves of the ticks with the frame counters 1
and 2 are not in opposite directions; the Water goes right twice, to
`(201, 100)` and then to `(202, 100)`. -/
theorem water_opposite_directions_fails :
    WaterOnFloor WORKING_WIDTH WORKING_HEIGHT floorGrid 200 100 ∧
    ¬ OppositeDirections WORKING_WIDTH WORKING_HEIGHT floorGrid 200 100 1 := by
  refine ⟨floorGrid_waterOnFloor, ?_⟩
  obtain ⟨h1, h2⟩ := (water_floor_two_steps WORKING_WIDTH WORKING_HEIGHT 1 floorGrid 200 100
    (by decide) (by decide) floorGrid_waterOnFloor).2 (by decide)
  rintro ⟨x1, x2, hw1, hw2, hdir⟩
  have e1 := waterOnFloor_unique WORKING_WIDTH WORKING_HEIGHT _ _ 100 x1 (by decide) h1 hw1
  have e2 := waterOnFloor_unique WORKING_WIDTH WORKING_HEIGHT _ _ 100 x2 (by decide) h2 hw2
  omega

/-! ## The scan with a record -/

theorem scanRowWith_fst {β : Type} (obs : Int → Int → Grid → List β) (W H f : Nat) (col : Int)
    (st : Grid × List β) :
    (scanRowWith obs W H f col st).1 = scanRow W H f col st.1 := by
  unfold scanRowWith scanRow
  generalize rowOrder W f = l
  induction l generalizing st with
  | nil => rfl
  | cons a t ih => rw [List.foldl_cons, List.foldl_cons, ih]

/-- The grid computed by the scan with a record is the grid of the scan. -/
theorem scanWith_fst {β : Type} (obs : Int → Int → Grid → List β) (W H f : Nat)
    (st : Grid × List β) :
    (scanWith obs W H f st).1 = scan W H f st.1 := by
  unfold scanWith scan
  generalize colOrder H = l
  induction l generalizing st with
  | nil => rfl
  | cons a t ih => rw [List.foldl_cons, List.foldl_cons, ih, scanRowWith_fst]

theorem scanWith_invariant {β : Type} (obs : Int → Int → Grid → List β) (W H f : Nat)
    (P : Grid × List β → Prop)
    (hstep : ∀ (row col : Int) (st : Grid × List β), 0 ≤ row ∧ row < W → 0 ≤ col ∧ col < H →
      P st → P (cellStep W H f row col st.1, st.2 ++ obs row col st.1))
    (st : Grid × List β) (hs : P st) : P (scanWith obs W H f st) := by
  unfold scanWith
  apply foldl_invariant P _ _ st hs
  intro col hcol t ht
  unfold scanRowWith
  apply foldl_invariant P _ _ t ht
  intro row hrow u hu
  exact hstep row col u ((mem_rowOrder W f row).1 hrow) ((mem_colOrder H col).1 hcol) hu

/-- The grid at the end of a tick is the grid of the tick's record of moves. -/
theorem tick_eq_scanWith {β : Type} (obs : Int → Int → Grid → List β) (W H f : Nat) (g : Grid) :
    (scanWith obs W H f (resetProcessed W H g, [])).1 = tick W H f g := by
  rw [scanWith_fst]; rfl

theorem cellMove_eq (W H f : Nat) (row col : Int) (s : Grid) :
    cellMove W H f row col s =
      if (s (col * W + row)).processed = true ∨ (s (col * W + row)).type = BLOCK_AIR ∨
          (s (col * W + row)).type = BLOCK_WOOD then none
      else if chooseDest W H f row col s = -1 then none
      else some (col * W + row, chooseDest W H f row col s) := by
  unfold cellMove
  simp only []
  by_cases hp : (s (col * W + row)).processed = true
  · simp [hp]
  · by_cases ht : (s (col * W + row)).type = BLOCK_AIR ∨ (s (col * W + row)).type = BLOCK_WOOD
    · simp only [hp, ht, or_true, if_true, Bool.false_eq_true, if_false]
    · have ht' : ¬ ((s (col * W + row)).processed = true ∨ (s (col * W + row)).type = BLOCK_AIR ∨
          (s (col * W + row)).type = BLOCK_WOOD) := by
        rintro (h | h)
        · exact hp h
        · exact ht h
      rw [if_neg hp, if_neg ht, if_neg ht']
      by_cases hd : chooseDest W H f row col s = -1
      · simp [hd]
      · simp [hd]

/-- What is known of a move of the loop body: the source is the cell visited,
which is neither processed nor Air nor Wood, and the destination is the legal
destination chosen by the rule. -/
theorem cellMove_spec (W H f : Nat) (row col : Int) (s : Grid) (p d : Int)
    (hrow : 0 ≤ row ∧ row < W) (hcol : 0 ≤ col ∧ col < H)
    (h : cellMove W H f row col s = some (p, d)) :
    p = col * W + row ∧ d = chooseDest W H f row col s ∧ d ≠ -1 ∧
      (s p).processed = false ∧ (s p).type ≠ BLOCK_AIR ∧ (s p).type ≠ BLOCK_WOOD ∧
      ValidMove W H s row col d ∧ cellStep W H f row col s = applyMove s p d := by
  rw [cellMove_eq] at h
  split_ifs at h with h1 h2
  simp only [Option.some.injEq, Prod.mk.injEq] at h
  obtain ⟨rfl, rfl⟩ := h
  have hv : ValidMove W H s row col (chooseDest W H f row col s) := by
    rcases chooseDest_spec W H f s row col hrow hcol with h | h
    · exact absurd h h2
    · exact h
  refine ⟨rfl, rfl, h2, ?_, fun h => h1 (Or.inr (Or.inl h)), fun h => h1 (Or.inr (Or.inr h)),
    hv, ?_⟩
  · cases hp : (s (col * W + row)).processed
    · rfl
    · exact absurd (Or.inl hp) h1
  · rw [cellStep_eq, if_neg h1, if_neg h2]

/-- Without a move the loop body changes no material. -/
theorem cellMove_none (W H f : Nat) (row col : Int) (s : Grid)
    (h : cellMove W H f row col s = none) (i : Int) :
    (cellStep W H f row col s i).type = (s i).type ∧
      ((s i).processed = true → (cellStep W H f row col s i).processed = true) := by
  rw [cellMove_eq] at h
  rw [cellStep_eq]
  split_ifs at h ⊢ with h1 h2
  · exact ⟨rfl, fun h => h⟩
  · rw [setProcessed_apply]
    split_ifs with hi
    · subst hi; exact ⟨rfl, fun _ => rfl⟩
    · exact ⟨rfl, fun h => h⟩

/-- Induction over the moves of a tick: a property of the grid together with
the record of the moves made so far that holds after the reset, is kept by a
loop body that makes no move and is kept by a move, holds at the end of the
tick. -/
theorem tickMoves_invariant (W H f : Nat) (P : Grid × List (Int × Int) → Prop)
    (hnone : ∀ (row col : Int) (st : Grid × List (Int × Int)),
      0 ≤ row ∧ row < W → 0 ≤ col ∧ col < H → P st →
      cellMove W H f row col st.1 = none → P (cellStep W H f row col st.1, st.2))
    (hsome : ∀ (row col : Int) (st : Grid × List (Int × Int)) (p d : Int),
      0 ≤ row ∧ row < W → 0 ≤ col ∧ col < H → P st →
      cellMove W H f row col st.1 = some (p, d) → P (applyMove st.1 p d, st.2 ++ [(p, d)]))
    (g : Grid) (h0 : P (resetProcessed W H g, [])) :
    P (tick W H f g, tickMoves W H f g) := by
  have key := scanWith_invariant (fun row col s => (cellMove W H f row col s).toList) W H f P
    (by
      intro row col st hrow hcol hst
      show P (cellStep W H f row col st.1, st.2 ++ (cellMove W H f row col st.1).toList)
      cases hc : cellMove W H f row col st.1 with
      | none =>
        rw [Option.toList_none, List.append_nil]
        exact hnone row col st hrow hcol hst hc
      | some pd =>
        obtain ⟨p, d⟩ := pd
        rw [Option.toList_some, (cellMove_spec W H f row col st.1 p d hrow hcol hc).2.2.2.2.2.2.2]
        exact hsome row col st p d hrow hcol hst hc)
    (resetProcessed W H g, []) h0
  have e : (scanWith (fun row col s => (cellMove W H f row col s).toList) W H f
      (resetProcessed W H g, [])) = (tick W H f g, tickMoves W H f g) :=
    Prod.ext (tick_eq_scanWith _ W H f g) rfl
  rw [← e]
  exact key

/-! ## Wood does not move -/

theorem validMove_not_wood (W H : Nat) (s : Grid) (row col dest : Int)
    (h : ValidMove W H s row col dest) : (s dest).type ≠ BLOCK_WOOD := by
  have hair : ∀ t : BlockType, t = BLOCK_AIR ∨ IsLiquid t = true → t ≠ BLOCK_WOOD := by
    intro t ht hs
    subst hs
    rcases ht with h | h
    · exact absurd h (by decide)
    · exact absurd h (by decide)
  obtain ⟨r, c, _, _, _, hcase⟩ := h
  rcases hcase with ⟨_, _, hcontent⟩ | ⟨_, _, _, ha⟩
  · rcases hcontent with ⟨_, h2⟩ | ⟨_, h2⟩
    · exact hair _ h2
    · exact hair _ (Or.inl h2)
  · exact hair _ (Or.inl ha)

theorem cellStep_wood (W H f : Nat) (row col : Int) (s : Grid)
    (hrow : 0 ≤ row ∧ row < W) (hcol : 0 ≤ col ∧ col < H) (i : Int) :
    (cellStep W H f row col s i).type = BLOCK_WOOD ↔ (s i).type = BLOCK_WOOD := by
  cases hm : cellMove W H f row col s with
  | none => rw [(cellMove_none W H f row col s hm i).1]
  | some m =>
    obtain ⟨p, d⟩ := m
    obtain ⟨_, _, _, _, _, hpw, hv, hstep⟩ := cellMove_spec W H f row col s p d hrow hcol hm
    have hdw := validMove_not_wood W H s row col d hv
    rw [hstep, applyMove_apply]
    split_ifs with h1 h2
    · subst h1; exact ⟨fun h => absurd h hdw, fun h => absurd h hpw⟩
    · subst h2; exact ⟨fun h => absurd h hpw, fun h => absurd h hdw⟩
    · exact Iff.rfl

/-! ## Water and Acid are treated alike -/

theorem swapLiquid_air (t : BlockType) : swapLiquid t = BLOCK_AIR ↔ t = BLOCK_AIR := by
  unfold swapLiquid; split_ifs with h1 h2 <;> simp_all

theorem swapLiquid_sand (t : BlockType) : swapLiquid t = BLOCK_SAND ↔ t = BLOCK_SAND := by
  unfold swapLiquid; split_ifs with h1 h2 <;> simp_all

theorem swapLiquid_wood (t : BlockType) : swapLiquid t = BLOCK_WOOD ↔ t = BLOCK_WOOD := by
  unfold swapLiquid; split_ifs with h1 h2 <;> simp_all

theorem swapLiquid_liquid (t : BlockType) :
    (swapLiquid t = BLOCK_WATER ∨ swapLiquid t = BLOCK_ACID) ↔
      (t = BLOCK_WATER ∨ t = BLOCK_ACID) := by
  unfold swapLiquid; split_ifs with h1 h2 <;> simp_all

theorem IsLiquid_swapLiquid (t : BlockType) : IsLiquid (swapLiquid t) = IsLiquid t := by
  rw [Bool.eq_iff_iff, IsLiquid_iff, IsLiquid_iff]
  exact swapLiquid_liquid t

theorem swapLiquids_type (s : Grid) (i : Int) :
    (swapLiquids s i).type = swapLiquid (s i).type := rfl

theorem swapLiquids_processed (s : Grid) (i : Int) :
    (swapLiquids s i).processed = (s i).processed := rfl

theorem TrySlideLoop_swapLiquids (W : Nat) (col dir : Int) (s : Grid) :
    ∀ (n : Nat) (r : Int),
      TrySlideLoop W col dir (swapLiquids s) n r = TrySlideLoop W col dir s n r := by
  intro n
  induction n with
  | zero => intro r; rfl
  | succ n ih =>
    intro r
    unfold TrySlideLoop
    simp only [swapLiquids_type, IsLiquid_swapLiquid, swapLiquid_air, ih]

theorem TrySlide_swapLiquids (W : Nat) (row col dir : Int) (s : Grid) :
    TrySlide W row col dir (swapLiquids s) = TrySlide W row col dir s :=
  TrySlideLoop_swapLiquids W col dir s 8 row

theorem chooseDest_swapLiquids (W H f : Nat) (row col : Int) (s : Grid) :
    chooseDest W H f row col (swapLiquids s) = chooseDest W H f row col s := by
  unfold chooseDest
  simp only [swapLiquids_type, IsLiquid_swapLiquid, swapLiquid_air, swapLiquid_sand,
    swapLiquid_liquid, TrySlide_swapLiquids]

theorem cellStep_swapLiquids (W H f : Nat) (row col : Int) (s : Grid) :
    cellStep W H f row col (swapLiquids s) = swapLiquids (cellStep W H f row col s) := by
  rw [cellStep_eq, cellStep_eq, chooseDest_swapLiquids]
  simp only [swapLiquids_type, swapLiquids_processed, swapLiquid_air, swapLiquid_wood]
  split_ifs with h1 h2
  · rfl
  · funext i
    show setProcessed (swapLiquids s) _ i = ⟨swapLiquid (setProcessed s _ i).type,
      (setProcessed s _ i).processed⟩
    rw [setProcessed_apply, setProcessed_apply]
    split_ifs <;> rfl
  · funext i
    show applyMove (swapLiquids s) _ _ i = ⟨swapLiquid (applyMove s _ _ i).type,
      (applyMove s _ _ i).processed⟩
    rw [applyMove_apply, applyMove_apply]
    split_ifs <;> rfl

theorem resetProcessed_swapLiquids (W H : Nat) (g : Grid) :
    resetProcessed W H (swapLiquids g) = swapLiquids (resetProcessed W H g) := by
  funext i
  show _ = (⟨swapLiquid (resetProcessed W H g i).type, (resetProcessed W H g i).processed⟩ :
    CellData)
  rw [resetProcessed_apply, resetProcessed_apply]
  split_ifs <;> rfl

theorem foldl_commute {α β : Type} (step : β → α → β) (φ : β → β)
    (h : ∀ e s, step (φ s) e = φ (step s e)) (l : List α) :
    ∀ s : β, l.foldl step (φ s) = φ (l.foldl step s) := by
  induction l with
  | nil => intro s; rfl
  | cons a t ih => intro s; rw [List.foldl_cons, List.foldl_cons, h, ih]

/-! ## A grid with two movable cells, one above the other -/

theorem foldl_two {α β : Type} (step : β → α → β) (s : β) (e1 e2 : α) (R : α → α → Prop)
    (hirr : ∀ a, ¬ R a a) (h12 : ¬ R e2 e1) (hne : e1 ≠ e2) (l : List α)
    (hR : l.Pairwise R) (hm1 : e1 ∈ l) (hm2 : e2 ∈ l)
    (h1 : ∀ e ∈ l, e ≠ e1 → e ≠ e2 → step s e = s)
    (h2 : ∀ e ∈ l, e ≠ e1 → e ≠ e2 → step (step s e1) e = step s e1)
    (h3 : ∀ e ∈ l, e ≠ e1 → e ≠ e2 → step (step (step s e1) e2) e = step (step s e1) e2) :
    l.foldl step s = step (step s e1) e2 := by
  induction l with
  | nil => exact absurd hm1 (List.not_mem_nil e1)
  | cons a t ih =>
    rw [List.foldl_cons]
    rw [List.pairwise_cons] at hR
    obtain ⟨hhead, htail⟩ := hR
    by_cases ha1 : a = e1
    · subst ha1
      have hnot : ∀ e ∈ t, e ≠ a := fun e he h => hirr a (h ▸ hhead e he)
      have hnd : t.Nodup := htail.imp (fun {x y} hxy (h : x = y) => hirr x (by
        rw [← h] at hxy; exact hxy))
      have hm2t : e2 ∈ t := by
        rcases List.mem_cons.1 hm2 with h | h
        · exact absurd h.symm hne
        · exact h
      exact foldl_single step (step s a) e2 t hnd hm2t
        (fun e he hne2 => h2 e (List.mem_cons_of_mem a he) (hnot e he) hne2)
        (fun e he hne2 => h3 e (List.mem_cons_of_mem a he) (hnot e he) hne2)
    · by_cases ha2 : a = e2
      · subst ha2
        rcases List.mem_cons.1 hm1 with h | h
        · exact absurd h hne
        · exact absurd (hhead e1 h) h12
      · rw [h1 a (List.mem_cons_self a t) ha1 ha2]
        have hm1t : e1 ∈ t := by
          rcases List.mem_cons.1 hm1 with h | h
          · exact absurd h.symm ha1
          · exact h
        have hm2t : e2 ∈ t := by
          rcases List.mem_cons.1 hm2 with h | h
          · exact absurd h.symm ha2
          · exact h
        exact ih htail hm1t hm2t (fun e he => h1 e (List.mem_cons_of_mem a he))
          (fun e he => h2 e (List.mem_cons_of_mem a he))
          (fun e he => h3 e (List.mem_cons_of_mem a he))

theorem pairwise_colOrder (H : Nat) : (colOrder H).Pairwise (fun a b => b < a) := by
  unfold colOrder
  rw [List.pairwise_map]
  exact (List.pairwise_lt_range H).imp (fun {a b} h => by omega)

/-- The loop body together with the record of its move. -/
theorem stepMoves_skip (W H f : Nat) (row col : Int) (st : Grid × List (Int × Int))
    (h : Settled (st.1 (col * W + row))) :
    (cellStep W H f row col st.1, st.2 ++ (cellMove W H f row col st.1).toList) = st := by
  have h2 : (st.1 (col * W + row)).processed = true ∨ (st.1 (col * W + row)).type = BLOCK_AIR ∨
      (st.1 (col * W + row)).type = BLOCK_WOOD := h
  rw [cellStep_skip W H f row col st.1 h, cellMove_eq, if_pos h2]
  simp

theorem scanRowMoves_skip (W H f : Nat) (col : Int) (st : Grid × List (Int × Int))
    (hcol : 0 ≤ col ∧ col < H)
    (h : ∀ row : Int, 0 ≤ row ∧ row < W → Settled (st.1 (col * W + row))) :
    scanRowWith (fun row col s => (cellMove W H f row col s).toList) W H f col st = st := by
  have _ := hcol
  unfold scanRowWith
  apply foldl_skip
  intro row hrow
  exact stepMoves_skip W H f row col st (h row ((mem_rowOrder W f row).1 hrow))

theorem scanRowMoves_single (W H f : Nat) (x col : Int) (st : Grid × List (Int × Int))
    (hx : 0 ≤ x ∧ x < W)
    (h : ∀ row : Int, 0 ≤ row ∧ row < W → row ≠ x → Settled (st.1 (col * W + row))) :
    scanRowWith (fun row col s => (cellMove W H f row col s).toList) W H f col st =
      (cellStep W H f x col st.1, st.2 ++ (cellMove W H f x col st.1).toList) := by
  unfold scanRowWith
  apply foldl_single _ _ x _ (nodup_rowOrder W f) ((mem_rowOrder W f x).2 hx)
  · intro row hrow hne
    exact stepMoves_skip W H f row col st (h row ((mem_rowOrder W f row).1 hrow) hne)
  · intro row hrow hne
    exact stepMoves_skip W H f row col _
      (cellStep_preserves_settled W H f x col st.1 _
        (h row ((mem_rowOrder W f row).1 hrow) hne))

/-- When the cells at `(x, y)` and `(x, y + 1)` are the only cells of the grid
that are not processed, Air or Wood, the scan is the loop body at `(x, y + 1)`
followed by the loop body at `(x, y)`. -/
theorem scanMoves_two (W H f : Nat) (s : Grid) (x y : Int)
    (hx : 0 ≤ x ∧ x < W) (hy : 0 ≤ y) (hH : y + 1 < H)
    (hothers : ∀ row col : Int, 0 ≤ row ∧ row < W → 0 ≤ col ∧ col < H →
      ¬ (row = x ∧ (col = y ∨ col = y + 1)) → Settled (s (col * W + row))) :
    scanWith (fun row col s => (cellMove W H f row col s).toList) W H f (s, []) =
      (cellStep W H f x y (cellStep W H f x (y + 1) s),
        (cellMove W H f x (y + 1) s).toList ++
          (cellMove W H f x y (cellStep W H f x (y + 1) s)).toList) := by
  have hkeep : ∀ (t : Grid) (row col : Int),
      (∀ row col : Int, 0 ≤ row ∧ row < W → 0 ≤ col ∧ col < H →
        ¬ (row = x ∧ (col = y ∨ col = y + 1)) → Settled (t (col * W + row))) →
      ∀ row2 col2 : Int, 0 ≤ row2 ∧ row2 < W → 0 ≤ col2 ∧ col2 < H →
        ¬ (row2 = x ∧ (col2 = y ∨ col2 = y + 1)) →
        Settled (cellStep W H f row col t (col2 * W + row2)) :=
    fun t row col ht row2 col2 h1 h2 h3 =>
      cellStep_preserves_settled W H f row col t _ (ht row2 col2 h1 h2 h3)
  have hskip : ∀ (st : Grid × List (Int × Int)),
      (∀ row col : Int, 0 ≤ row ∧ row < W → 0 ≤ col ∧ col < H →
        ¬ (row = x ∧ (col = y ∨ col = y + 1)) → Settled (st.1 (col * W + row))) →
      ∀ col ∈ colOrder H, col ≠ y + 1 → col ≠ y →
        scanRowWith (fun row col s => (cellMove W H f row col s).toList) W H f col st = st := by
    intro st hst col hcol h1 h2
    have hc := (mem_colOrder H col).1 hcol
    exact scanRowMoves_skip W H f col st hc
      (fun row hrow => hst row col hrow hc (fun h => by omega))
  have hrow1 : ∀ (st : Grid × List (Int × Int)) (c : Int), 0 ≤ c ∧ c < H → (c = y ∨ c = y + 1) →
      (∀ row col : Int, 0 ≤ row ∧ row < W → 0 ≤ col ∧ col < H →
        ¬ (row = x ∧ (col = y ∨ col = y + 1)) → Settled (st.1 (col * W + row))) →
      scanRowWith (fun row col s => (cellMove W H f row col s).toList) W H f c st =
        (cellStep W H f x c st.1, st.2 ++ (cellMove W H f x c st.1).toList) :=
    fun st c hc _ hst => scanRowMoves_single W H f x c st hx
      (fun row hrow hne => hst row c hrow hc (fun h => hne h.1))
  have e1 := hrow1 (s, []) (y + 1) ⟨by omega, hH⟩ (Or.inr rfl) hothers
  have hs1 := hkeep s x (y + 1) hothers
  have e2 := hrow1 (cellStep W H f x (y + 1) s, [] ++ (cellMove W H f x (y + 1) s).toList) y
    ⟨hy, by omega⟩ (Or.inl rfl) hs1
  have hs2 := hkeep _ x y hs1
  unfold scanWith
  rw [foldl_two _ _ (y + 1) y (fun a b => b < a) (fun a => lt_irrefl a) (by omega) (by omega)
    (colOrder H) (pairwise_colOrder H) ((mem_colOrder H _).2 ⟨by omega, hH⟩)
    ((mem_colOrder H _).2 ⟨hy, by omega⟩)
    (hskip _ hothers)
    (by rw [e1]; exact hskip _ hs1)
    (by rw [e1, e2]; exact hskip _ hs2)]
  rw [e1, e2]
  simp

/-- The moves of a tick on a grid whose only non-Air cells are two Sand cells,
at `(x, y)` and below it at `(x, y + 1)`, with room below: the lower Sand moves
down first, then the upper Sand moves into the cell that the lower one left. -/
theorem tickMoves_stacked (W H f : Nat) (g : Grid) (x y : Int)
    (hx : 0 ≤ x ∧ x < W) (hy : 0 ≤ y) (hH : y + 2 < H)
    (hg : ∀ row col : Int, 0 ≤ row ∧ row < W → 0 ≤ col ∧ col < H →
      (g (col * W + row)).type =
        if row = x ∧ (col = y ∨ col = y + 1) then BLOCK_SAND else BLOCK_AIR) :
    tickMoves W H f g =
      [((y + 1) * W + x, (y + 1 + 1) * W + x), (y * W + x, (y + 1) * W + x)] := by
  have hy0 : 0 ≤ y ∧ y < H := ⟨hy, by omega⟩
  have hy1 : 0 ≤ y + 1 ∧ y + 1 < H := ⟨by omega, by omega⟩
  have hy2 : 0 ≤ y + 1 + 1 ∧ y + 1 + 1 < H := ⟨by omega, by omega⟩
  have ht0 : (resetProcessed W H g (y * W + x)).type = BLOCK_SAND := by
    rw [resetProcessed_type, hg x y hx hy0, if_pos ⟨rfl, Or.inl rfl⟩]
  have ht1 : (resetProcessed W H g ((y + 1) * W + x)).type = BLOCK_SAND := by
    rw [resetProcessed_type, hg x (y + 1) hx hy1, if_pos ⟨rfl, Or.inr rfl⟩]
  have ht2 : (resetProcessed W H g ((y + 1 + 1) * W + x)).type = BLOCK_AIR := by
    rw [resetProcessed_type, hg x (y + 1 + 1) hx hy2, if_neg (by omega)]
  have hp0 := resetProcessed_processed W H g _ (idx_range W H x y hx hy0)
  have hp1 := resetProcessed_processed W H g _ (idx_range W H x (y + 1) hx hy1)
  have hne : ∀ c : Int, 0 ≤ c ∧ c < H → c * (W : Int) + x ≠ -1 := by
    intro c hc
    have := (idx_range W H x c hx hc).1
    omega
  have hne01 : y * (W : Int) + x ≠ (y + 1) * W + x :=
    fun h => by have := ((idx_eq_iff W x y x (y + 1) hx hx).1 h).2; omega
  have hne02 : y * (W : Int) + x ≠ (y + 1 + 1) * W + x :=
    fun h => by have := ((idx_eq_iff W x y x (y + 1 + 1) hx hx).1 h).2; omega
  have hne12 : (y + 1) * (W : Int) + x ≠ (y + 1 + 1) * W + x :=
    fun h => by have := ((idx_eq_iff W x (y + 1) x (y + 1 + 1) hx hx).1 h).2; omega
  -- the lower Sand
  have hd1 : chooseDest W H f x (y + 1) (resetProcessed W H g) = (y + 1 + 1) * W + x :=
    chooseDest_sand_down W H f _ x (y + 1) hx.1 hy1.1 hy2.2 ht1 ht2
  have hns1 : ¬ ((resetProcessed W H g ((y + 1) * W + x)).processed = true ∨
      (resetProcessed W H g ((y + 1) * W + x)).type = BLOCK_AIR ∨
      (resetProcessed W H g ((y + 1) * W + x)).type = BLOCK_WOOD) := by
    rw [hp1, ht1]; decide
  have hm1 : cellMove W H f x (y + 1) (resetProcessed W H g) =
      some ((y + 1) * W + x, (y + 1 + 1) * W + x) := by
    rw [cellMove_eq, if_neg hns1, hd1, if_neg (hne _ hy2)]
  have hs1 : cellStep W H f x (y + 1) (resetProcessed W H g) =
      applyMove (resetProcessed W H g) ((y + 1) * W + x) ((y + 1 + 1) * W + x) := by
    rw [cellStep_eq, if_neg hns1, hd1, if_neg (hne _ hy2)]
  -- the upper Sand
  have hu0 : applyMove (resetProcessed W H g) ((y + 1) * W + x) ((y + 1 + 1) * W + x)
      (y * W + x) = resetProcessed W H g (y * W + x) := by
    rw [applyMove_apply, if_neg hne01, if_neg hne02]
  have hu1 : (applyMove (resetProcessed W H g) ((y + 1) * W + x) ((y + 1 + 1) * W + x)
      ((y + 1) * W + x)).type = BLOCK_AIR := by
    rw [applyMove_apply, if_pos rfl]; exact ht2
  have hd0 : chooseDest W H f x y
      (applyMove (resetProcessed W H g) ((y + 1) * W + x) ((y + 1 + 1) * W + x)) =
      (y + 1) * W + x :=
    chooseDest_sand_down W H f _ x y hx.1 hy hy1.2 (by rw [hu0]; exact ht0) hu1
  have hns0 : ¬ ((applyMove (resetProcessed W H g) ((y + 1) * W + x) ((y + 1 + 1) * W + x)
        (y * W + x)).processed = true ∨
      (applyMove (resetProcessed W H g) ((y + 1) * W + x) ((y + 1 + 1) * W + x)
        (y * W + x)).type = BLOCK_AIR ∨
      (applyMove (resetProcessed W H g) ((y + 1) * W + x) ((y + 1 + 1) * W + x)
        (y * W + x)).type = BLOCK_WOOD) := by
    rw [hu0, hp0, ht0]; decide
  have hm0 : cellMove W H f x y
      (applyMove (resetProcessed W H g) ((y + 1) * W + x) ((y + 1 + 1) * W + x)) =
      some (y * W + x, (y + 1) * W + x) := by
    rw [cellMove_eq, if_neg hns0, hd0, if_neg (hne _ hy1)]
  unfold tickMoves
  rw [scanMoves_two W H f _ x y hx hy hy1.2, hm1, hs1, hm0]
  · rfl
  · intro row col hrow hcol hnot
    right; left
    rw [resetProcessed_type, hg row col hrow hcol, if_neg hnot]

theorem stackGrid_type (row col : Int) (hrow : 0 ≤ row ∧ row < WORKING_WIDTH)
    (_hcol : 0 ≤ col ∧ col < WORKING_HEIGHT) :
    (stackGrid (col * WORKING_WIDTH + row)).type =
      if row = 200 ∧ (col = 100 ∨ col = 100 + 1) then BLOCK_SAND else BLOCK_AIR := by
  rw [WORKING_WIDTH_eq] at hrow ⊢
  push_cast at hrow ⊢
  unfold stackGrid
  by_cases h : row = 200 ∧ (col = 100 ∨ col = 101)
  · rw [if_pos (by omega), if_pos h]
  · rw [if_neg (by omega), if_neg h]

/-- The moves of a tick on the grid `stackGrid`. -/
theorem stackGrid_moves (f : Nat) :
    tickMoves WORKING_WIDTH WORKING_HEIGHT f stackGrid =
      [(101 * 416 + 200, 102 * 416 + 200), (100 * 416 + 200, 101 * 416 + 200)] := by
  rw [tickMoves_stacked WORKING_WIDTH WORKING_HEIGHT f stackGrid 200 100 (by decide) (by decide)
    (by decide) stackGrid_type, WORKING_WIDTH_eq]
  rfl

/-! ## The neighbours below, and the rules for Sand and for liquids -/

theorem under_test (W H : Nat) (x y : Int) (hx : 0 ≤ x ∧ x < W) (hy : 0 ≤ y ∧ y < H)
    (Q : Int → Prop) :
    (under W H x y ≠ -1 ∧ Q (under W H x y)) ↔
      ((0 ≤ x ∧ x < W) ∧ (0 ≤ y + 1 ∧ y + 1 < H) ∧ Q ((y + 1) * W + x)) := by
  constructor
  · rintro ⟨hne, hq⟩
    obtain ⟨hH, he⟩ := under_spec W H x y hx.1 hy.1 hne
    rw [he] at hq
    exact ⟨hx, ⟨by omega, hH⟩, hq⟩
  · rintro ⟨_, hH, hq⟩
    rw [under_eq W H x y hH.2]
    have := (idx_range W H x (y + 1) hx hH).1
    exact ⟨by omega, hq⟩

theorem underLeft_test (W H : Nat) (x y r : Int) (hx : 0 ≤ x ∧ x < W) (hy : 0 ≤ y ∧ y < H)
    (hr : r = x - 1) (Q : Int → Prop) :
    (underLeft W H x y ≠ -1 ∧ Q (underLeft W H x y)) ↔
      ((0 ≤ r ∧ r < W) ∧ (0 ≤ y + 1 ∧ y + 1 < H) ∧ Q ((y + 1) * W + r)) := by
  subst hr
  constructor
  · rintro ⟨hne, hq⟩
    obtain ⟨hH, h0, he⟩ := underLeft_spec W H x y hx.1 hy.1 hne
    rw [he] at hq
    exact ⟨⟨by omega, by omega⟩, ⟨by omega, hH⟩, hq⟩
  · rintro ⟨hr, hH, hq⟩
    have hu : under W H x y ≠ -1 := under_ne W H x y hx.1 hy.1 hH.2
    have he : underLeft W H x y = (y + 1) * W + (x - 1) := by
      unfold underLeft
      rw [if_pos ⟨hu, by omega⟩, under_eq W H x y hH.2]; ring
    rw [he]
    have := (idx_range W H (x - 1) (y + 1) hr hH).1
    exact ⟨by omega, hq⟩

theorem underRight_test (W H : Nat) (x y r : Int) (hx : 0 ≤ x ∧ x < W) (hy : 0 ≤ y ∧ y < H)
    (hr : r = x + 1) (Q : Int → Prop) :
    (underRight W H x y ≠ -1 ∧ Q (underRight W H x y)) ↔
      ((0 ≤ r ∧ r < W) ∧ (0 ≤ y + 1 ∧ y + 1 < H) ∧ Q ((y + 1) * W + r)) := by
  subst hr
  constructor
  · rintro ⟨hne, hq⟩
    obtain ⟨hH, h0, he⟩ := underRight_spec W H x y hx.1 hy.1 hne
    rw [he] at hq
    exact ⟨⟨by omega, by omega⟩, ⟨by omega, hH⟩, hq⟩
  · rintro ⟨hr, hH, hq⟩
    have hu : under W H x y ≠ -1 := under_ne W H x y hx.1 hy.1 hH.2
    have he : underRight W H x y = (y + 1) * W + (x + 1) := by
      unfold underRight
      rw [if_pos ⟨hu, by omega⟩, under_eq W H x y hH.2]; ring
    rw [he]
    have := (idx_range W H (x + 1) (y + 1) hr hH).1
    exact ⟨by omega, hq⟩

theorem sandCanEnter_iff (W H : Nat) (s : Grid) (r c : Int) :
    sandCanEnter W H s r c = true ↔
      ((0 ≤ r ∧ r < W) ∧ (0 ≤ c ∧ c < H) ∧
        ((s (c * W + r)).type = BLOCK_AIR ∨ IsLiquid (s (c * W + r)).type = true)) := by
  unfold sandCanEnter
  rw [decide_eq_true_iff, IsLiquid_iff]

theorem holdsAir_iff (W H : Nat) (s : Grid) (r c : Int) :
    holdsAir W H s r c = true ↔
      ((0 ≤ r ∧ r < W) ∧ (0 ≤ c ∧ c < H) ∧ (s (c * W + r)).type = BLOCK_AIR) := by
  unfold holdsAir
  rw [decide_eq_true_iff]

/-- A chain of three tests on the neighbours below, each test equivalent to a
test on a cell given by its coordinates. -/
theorem three_tests (a b c a2 b2 c2 : Int) (A B C A2 B2 C2 : Prop)
    [Decidable A] [Decidable B] [Decidable C] [Decidable A2] [Decidable B2] [Decidable C2]
    (hA : A ↔ A2) (hB : B ↔ B2) (hC : C ↔ C2)
    (ha : A → a = a2) (hb : B → b = b2) (hc : C → c = c2) :
    (if A then a else if B then b else if C then c else -1) =
      (if A2 then a2 else if B2 then b2 else if C2 then c2 else -1) := by
  by_cases h1 : A
  · rw [if_pos h1, if_pos (hA.1 h1)]; exact ha h1
  · rw [if_neg h1, if_neg (fun h => h1 (hA.2 h))]
    by_cases h2 : B
    · rw [if_pos h2, if_pos (hB.1 h2)]; exact hb h2
    · rw [if_neg h2, if_neg (fun h => h2 (hB.2 h))]
      by_cases h3 : C
      · rw [if_pos h3, if_pos (hC.1 h3)]; exact hc h3
      · rw [if_neg h3, if_neg (fun h => h3 (hC.2 h))]

theorem chooseDest_sand (W H f : Nat) (s : Grid) (x y : Int)
    (hx : 0 ≤ x ∧ x < W) (hy : 0 ≤ y ∧ y < H)
    (hsand : (s (y * W + x)).type = BLOCK_SAND) :
    chooseDest W H f x y s = sandRuleDest W H s x y := by
  unfold chooseDest sandRuleDest
  simp only []
  rw [if_pos hsand]
  apply three_tests
  · rw [sandCanEnter_iff]
    exact under_test W H x y hx hy (fun i => (s i).type = BLOCK_AIR ∨ IsLiquid (s i).type = true)
  · rw [sandCanEnter_iff]
    exact underLeft_test W H x y (x - 1) hx hy rfl
      (fun i => (s i).type = BLOCK_AIR ∨ IsLiquid (s i).type = true)
  · rw [sandCanEnter_iff]
    exact underRight_test W H x y (x + 1) hx hy rfl
      (fun i => (s i).type = BLOCK_AIR ∨ IsLiquid (s i).type = true)
  · intro h
    exact (under_spec W H x y hx.1 hy.1 h.1).2
  · intro h
    exact (underLeft_spec W H x y hx.1 hy.1 h.1).2.2
  · intro h
    exact (underRight_spec W H x y hx.1 hy.1 h.1).2.2

theorem validMove_ne_pos (W H : Nat) (s : Grid) (row col dest : Int)
    (hrow : 0 ≤ row ∧ row < W) (h : ValidMove W H s row col dest) :
    dest ≠ col * W + row := by
  obtain ⟨r, c, hd, hr, _, hcase⟩ := h
  intro he
  rw [hd] at he
  obtain ⟨h1, h2⟩ := idx_inj W r c row col hr hrow he
  rcases hcase with ⟨hc1, _, _⟩ | ⟨_, hdist, _⟩
  · omega
  · rw [h1, sub_self, abs_zero] at hdist
    omega

/-- The chain of tests of the liquid rule, each test on a neighbour below
equivalent to a test on a cell given by its coordinates. -/
theorem liquid_tests (a b c t1 t2 a2 b2 c2 : Int) (U L R U2 L2 R2 : Prop)
    [Decidable U] [Decidable L] [Decidable R] [Decidable U2] [Decidable L2] [Decidable R2]
    (hU : U ↔ U2) (hL : L ↔ L2) (hR : R ↔ R2)
    (ha : U → a = a2) (hb : L → b = b2 ∧ b ≠ -1) (hc : R → c = c2 ∧ c ≠ -1) :
    (if U then a
      else if (if L then b else if R then c else -1) = -1 then (if t1 = -1 then t2 else t1)
      else (if L then b else if R then c else -1)) =
      (if U2 then a2 else if L2 then b2 else if R2 then c2
        else if t1 ≠ -1 then t1 else t2) := by
  by_cases h1 : U
  · rw [if_pos h1, if_pos (hU.1 h1)]; exact ha h1
  · rw [if_neg h1, if_neg (fun h => h1 (hU.2 h))]
    by_cases h2 : L
    · rw [if_pos h2, if_pos (hL.1 h2), if_neg (hb h2).2]; exact (hb h2).1
    · rw [if_neg h2, if_neg (fun h => h2 (hL.2 h))]
      by_cases h3 : R
      · rw [if_pos h3, if_pos (hR.1 h3), if_neg (hc h3).2]; exact (hc h3).1
      · rw [if_neg h3, if_neg (fun h => h3 (hR.2 h)), if_pos rfl]
        by_cases h4 : t1 = -1
        · rw [if_pos h4, if_neg (fun h => h h4)]
        · rw [if_neg h4, if_pos h4]

theorem chooseDest_liquid (W H f : Nat) (s : Grid) (x y : Int)
    (hx : 0 ≤ x ∧ x < W) (hy : 0 ≤ y ∧ y < H)
    (hliq : (s (y * W + x)).type = BLOCK_WATER ∨ (s (y * W + x)).type = BLOCK_ACID) :
    chooseDest W H f x y s = liquidRuleDest W H f s x y := by
  have hns : ¬ (s (y * W + x)).type = BLOCK_SAND := by
    rcases hliq with h | h <;> rw [h] <;> decide
  have hU := under_test W H x y hx hy (fun i => (s i).type = BLOCK_AIR)
  have hUv : under W H x y ≠ -1 ∧ (s (under W H x y)).type = BLOCK_AIR →
      under W H x y = (y + 1) * W + x := fun h => (under_spec W H x y hx.1 hy.1 h.1).2
  unfold chooseDest liquidRuleDest
  simp only []
  rw [if_neg hns, if_pos hliq]
  by_cases hp : (x + y + (f : Int)) % 2 = 0
  · have hpl : preferLeft f x y = true := (preferLeft_iff f x y).2 hp
    have hL := underLeft_test W H x y (x + -1) hx hy (by ring) (fun i => (s i).type = BLOCK_AIR)
    have hR := underRight_test W H x y (x - -1) hx hy (by ring) (fun i => (s i).type = BLOCK_AIR)
    rw [if_pos hp]
    simp only [hpl, if_true]
    exact liquid_tests _ _ _ _ _ _ _ _ _ _ _ _ _ _
      (by rw [holdsAir_iff]; exact hU) (by rw [holdsAir_iff]; exact hL)
      (by rw [holdsAir_iff]; exact hR) hUv
      (fun h => ⟨by rw [(underLeft_spec W H x y hx.1 hy.1 h.1).2.2]; ring, h.1⟩)
      (fun h => ⟨by rw [(underRight_spec W H x y hx.1 hy.1 h.1).2.2]; ring, h.1⟩)
  · have hpl : preferLeft f x y = false := by
      cases h : preferLeft f x y
      · rfl
      · exact absurd ((preferLeft_iff f x y).1 h) hp
    have hL := underLeft_test W H x y (x - 1) hx hy rfl (fun i => (s i).type = BLOCK_AIR)
    have hR := underRight_test W H x y (x + 1) hx hy rfl (fun i => (s i).type = BLOCK_AIR)
    rw [if_neg hp]
    simp only [hpl, Bool.false_eq_true, if_false]
    exact liquid_tests _ _ _ _ _ _ _ _ _ _ _ _ _ _
      (by rw [holdsAir_iff]; exact hU) (by rw [holdsAir_iff]; exact hR)
      (by rw [holdsAir_iff]; exact hL) hUv
      (fun h => ⟨(underRight_spec W H x y hx.1 hy.1 h.1).2.2, h.1⟩)
      (fun h => ⟨(underLeft_spec W H x y hx.1 hy.1 h.1).2.2, h.1⟩)

/-! ## The array indices of a tick -/

theorem TrySlideVisited_range (W : Nat) (col dir : Int) (s : Grid) :
    ∀ (n : Nat) (r : Int), ∀ idx ∈ TrySlideVisited W col dir s n r,
      ∃ r2 : Int, (0 ≤ r2 ∧ r2 < W) ∧ idx = col * W + r2 := by
  intro n
  induction n with
  | zero => intro r idx h; exact absurd h (List.not_mem_nil idx)
  | succ n ih =>
    intro r idx h
    unfold TrySlideVisited at h
    simp only [] at h
    split_ifs at h with h1 h2
    · exact absurd h (List.not_mem_nil idx)
    · rw [List.mem_singleton] at h
      exact ⟨r + dir, ⟨by omega, by omega⟩, h⟩
    · rcases List.mem_cons.1 h with h | h
      · exact ⟨r + dir, ⟨by omega, by omega⟩, h⟩
      · exact ih (r + dir) idx h

theorem cellIndices_range (W H f : Nat) (row col : Int) (s : Grid)
    (hrow : 0 ≤ row ∧ row < W) (hcol : 0 ≤ col ∧ col < H) :
    ∀ idx ∈ cellIndices W H f row col s, 0 ≤ idx ∧ idx < ((W * H : Nat) : Int) := by
  intro idx h
  unfold cellIndices at h
  simp only [] at h
  rcases List.mem_cons.1 h with h | h
  · rw [h]; exact idx_range W H row col hrow hcol
  · split_ifs at h with hskip
    · exact absurd h (List.not_mem_nil idx)
    · simp only [List.mem_append, List.mem_filter, List.mem_cons, List.mem_singleton,
        List.not_mem_nil, or_false, decide_eq_true_eq] at h
      rcases h with ((⟨hv, hne⟩ | hs) | hs) | ⟨hv, hne⟩
      · rcases hv with hv | hv | hv
        · subst hv
          obtain ⟨hH, he⟩ := under_spec W H row col hrow.1 hcol.1 hne
          rw [he]; exact idx_range W H row (col + 1) hrow ⟨by omega, hH⟩
        · subst hv
          obtain ⟨hH, h0, he⟩ := underLeft_spec W H row col hrow.1 hcol.1 hne
          rw [he]; exact idx_range W H (row - 1) (col + 1) ⟨by omega, by omega⟩ ⟨by omega, hH⟩
        · subst hv
          obtain ⟨hH, h0, he⟩ := underRight_spec W H row col hrow.1 hcol.1 hne
          rw [he]; exact idx_range W H (row + 1) (col + 1) ⟨by omega, by omega⟩ ⟨by omega, hH⟩
      · obtain ⟨r2, hr2, he⟩ := TrySlideVisited_range W col (-1) s 8 row idx hs
        rw [he]; exact idx_range W H r2 col hr2 hcol
      · obtain ⟨r2, hr2, he⟩ := TrySlideVisited_range W col 1 s 8 row idx hs
        rw [he]; exact idx_range W H r2 col hr2 hcol
      · subst hv
        rcases chooseDest_spec W H f s row col hrow hcol with h | h
        · exact absurd h hne
        · exact validMove_range W H s row col _ h

/-- Every array index read or written during a tick is an index of the grid. -/
theorem tickIndices_range (W H f : Nat) (g : Grid) :
    ∀ idx ∈ tickIndices W H f g, 0 ≤ idx ∧ idx < ((W * H : Nat) : Int) := by
  intro idx h
  unfold tickIndices at h
  rcases List.mem_append.1 h with h | h
  · rw [List.mem_map] at h
    obtain ⟨i, hi, rfl⟩ := h
    rw [List.mem_range] at hi
    exact ⟨by omega, by omega⟩
  · have key := scanWith_invariant (cellIndices W H f) W H f
      (fun st => ∀ idx ∈ st.2, 0 ≤ idx ∧ idx < ((W * H : Nat) : Int))
      (by
        intro row col st hrow hcol hst idx hidx
        rcases List.mem_append.1 hidx with h | h
        · exact hst idx h
        · exact cellIndices_range W H f row col st.1 hrow hcol idx h)
      (resetProcessed W H g, []) (fun idx h => absurd h (List.not_mem_nil idx))
    exact key idx h

theorem posExpr_eq (row col : Int) (hcol : 0 ≤ col) : posExpr row col = col * 416 + row := by
  unfold posExpr
  have h1 : ((SCREEN_WIDTH : Nat) : Int) = 1664 := rfl
  have h2 : ((PIXEL_SIZE : Nat) : Int) = 4 := rfl
  rw [h1, h2, Int.tdiv_eq_ediv (by omega) (by omega)]
  omega

/-! ## The brush edit -/

theorem mem_brushRange (a : Int) : a ∈ brushRange ↔ -2 ≤ a ∧ a ≤ 2 := by
  unfold brushRange brushSize
  simp only [List.mem_map, List.mem_range]
  constructor
  · rintro ⟨k, hk, rfl⟩; push_cast; omega
  · intro h
    exact ⟨(a + 2).toNat, by omega, by push_cast; omega⟩

theorem mem_brushIndices (W : Nat) (row col idx : Int) :
    idx ∈ brushIndices W row col ↔
      ∃ i j : Int, (-2 ≤ i ∧ i ≤ 2) ∧ (-2 ≤ j ∧ j ≤ 2) ∧ idx = ((col + i) * W) + row + j := by
  unfold brushIndices
  simp only [List.mem_flatMap, List.mem_map, mem_brushRange]
  constructor
  · rintro ⟨i, hi, j, hj, rfl⟩; exact ⟨i, j, hi, hj, rfl⟩
  · rintro ⟨i, j, hi, hj, rfl⟩; exact ⟨i, hi, j, hj, rfl⟩

theorem CellFromType_material (m : BlockType) (hm : IsMaterial m) :
    CellFromType m = Outcome.value ⟨m, false⟩ := by
  unfold CellFromType
  rw [if_pos]
  unfold IsMaterial at hm
  tauto

theorem brush_foldl (m : BlockType) (hm : IsMaterial m) (l : List Int) :
    ∀ s : Grid, l.foldl (brushWrite m) (Outcome.value s) =
      Outcome.value (fun i => if i ∈ l then ⟨m, false⟩ else s i) := by
  induction l with
  | nil => intro s; simp
  | cons a t ih =>
    intro s
    rw [List.foldl_cons]
    have e : brushWrite m (Outcome.value s) a =
        Outcome.value (Function.update s a ⟨m, false⟩) := by
      unfold brushWrite
      rw [CellFromType_material m hm]
    rw [e, ih]
    congr 1
    funext i
    by_cases h1 : i ∈ t
    · rw [if_pos h1, if_pos (List.mem_cons_of_mem a h1)]
    · rw [if_neg h1]
      by_cases h2 : i = a
      · subst h2
        rw [Function.update_same, if_pos (List.mem_cons_self i t)]
      · rw [Function.update_noteq h2, if_neg]
        intro h
        rcases List.mem_cons.1 h with h | h
        · exact h2 h
        · exact h1 h

/-- The closed form of the brush edit for a brush centre inside the grid and one
of the five materials: the written indices receive the cell
`(m, processed = false)`, every other index keeps its cell. -/
theorem brushEdit_eq (W H : Nat) (row col : Int) (m : BlockType) (s : Grid)
    (hm : IsMaterial m) (hrow : 0 ≤ row ∧ row < W) (hcol : 0 ≤ col ∧ col < H) :
    brushEdit W H row col m s =
      Outcome.value (fun i => if i ∈ brushIndices W row col then ⟨m, false⟩ else s i) := by
  unfold brushEdit
  rw [if_pos ⟨hrow.1, hrow.2, hcol.1, hcol.2⟩, brush_foldl m hm]

theorem brushIndices_left_edge :
    (99 * 416 + 415 : Int) ∈ brushIndices WORKING_WIDTH 1 100 := by
  rw [mem_brushIndices, WORKING_WIDTH_eq]
  exact ⟨0, -2, by decide, by decide, by decide⟩

theorem brushIndices_corner : (-834 : Int) ∈ brushIndices WORKING_WIDTH 0 0 := by
  rw [mem_brushIndices, WORKING_WIDTH_eq]
  exact ⟨-2, -2, by decide, by decide, by decide⟩

/-- Claim C11 (brush edit bounds) fails on the code.  On the program's grid in
its initial state with Sand selected: the brush centred at `(1, 100)`, one cell
from the left edge, turns the cell `(415, 99)` at the right end of the line
above, which is not a cell of the window, from Air into Sand; and the brush
centred at the corner `(0, 0)` writes the index `-834`, before the start of the
array. -/
theorem brush_edge_writes_outside :
    (∃ g2 : Grid,
      brushEdit WORKING_WIDTH WORKING_HEIGHT 1 100 BLOCK_SAND initialGrid = Outcome.value g2 ∧
      g2 (99 * 416 + 415) = ⟨BLOCK_SAND, false⟩ ∧
      initialGrid (99 * 416 + 415) = ⟨BLOCK_AIR, false⟩) ∧
    (99 * 416 + 415 : Int) = 99 * (WORKING_WIDTH : Int) + 415 ∧
    (-834 : Int) ∈ brushIndices WORKING_WIDTH 0 0 ∧
    (∃ g3 : Grid,
      brushEdit WORKING_WIDTH WORKING_HEIGHT 0 0 BLOCK_SAND initialGrid = Outcome.value g3 ∧
      g3 (-834) = ⟨BLOCK_SAND, false⟩) := by
  refine ⟨⟨_, brushEdit_eq WORKING_WIDTH WORKING_HEIGHT 1 100 BLOCK_SAND initialGrid
      (Or.inr (Or.inl rfl)) (by decide) (by decide), ?_, rfl⟩, by decide,
    brushIndices_corner,
    ⟨_, brushEdit_eq WORKING_WIDTH WORKING_HEIGHT 0 0 BLOCK_SAND initialGrid
      (Or.inr (Or.inl rfl)) (by decide) (by decide), ?_⟩⟩
  · show (if _ then _ else _) = _
    rw [if_pos brushIndices_left_edge]
  · show (if _ then _ else _) = _
    rw [if_pos brushIndices_corner]

/-- Claim C12 (brush window): for each of the five materials `m` and every
brush centre `(x, y)` with `2 ≤ x ≤ W - 3` and `2 ≤ y ≤ H - 3`, the radius-2
brush edit sets each of the 25 cells `(x + j, y + i)` with `-2 ≤ i, j ≤ 2` to the
cell `(m, processed = false)` and leaves every cell outside that 5 by 5 window,
and everything outside the array, unchanged. -/
theorem brush_window (W H : Nat) (m : BlockType) (s : Grid) (x y : Int)
    (hm : IsMaterial m) (hx : 2 ≤ x ∧ x ≤ (W : Int) - 3) (hy : 2 ≤ y ∧ y ≤ (H : Int) - 3) :
    ∃ g2 : Grid, brushEdit W H x y m s = Outcome.value g2 ∧
      (∀ i j : Int, -2 ≤ i ∧ i ≤ 2 → -2 ≤ j ∧ j ≤ 2 →
        g2 ((y + i) * W + (x + j)) = ⟨m, false⟩) ∧
      (∀ r c : Int, 0 ≤ r ∧ r < W → 0 ≤ c ∧ c < H →
        ¬ ((-2 ≤ c - y ∧ c - y ≤ 2) ∧ (-2 ≤ r - x ∧ r - x ≤ 2)) →
        g2 (c * W + r) = s (c * W + r)) ∧
      (∀ idx : Int, ¬ (0 ≤ idx ∧ idx < ((W * H : Nat) : Int)) → g2 idx = s idx) := by
  refine ⟨_, brushEdit_eq W H x y m s hm ⟨by omega, by omega⟩ ⟨by omega, by omega⟩, ?_, ?_, ?_⟩
  · intro i j hi hj
    show (if _ then _ else _) = _
    rw [if_pos]
    rw [mem_brushIndices]
    exact ⟨i, j, hi, hj, by ring⟩
  · intro r c hr hc hout
    show (if _ then _ else _) = _
    rw [if_neg]
    rw [mem_brushIndices]
    rintro ⟨i, j, hi, hj, he⟩
    have he2 : c * (W : Int) + r = (y + i) * W + (x + j) := by rw [he]; ring
    obtain ⟨h1, h2⟩ := idx_inj W r c (x + j) (y + i) hr ⟨by omega, by omega⟩ he2
    exact hout ⟨⟨by omega, by omega⟩, ⟨by omega, by omega⟩⟩
  · intro idx hout
    show (if _ then _ else _) = _
    rw [if_neg]
    rw [mem_brushIndices]
    rintro ⟨i, j, hi, hj, he⟩
    have he2 : idx = (y + i) * W + (x + j) := by rw [he]; ring
    rw [he2] at hout
    exact hout (idx_range W H (x + j) (y + i) ⟨by omega, by omega⟩ ⟨by omega, by omega⟩)

/-- An instance of claim C12 on the program's grid: the brush centred at
`(200, 100)` with Sand selected, on the initial grid. -/
theorem brush_window_witness :
    ∃ g2 : Grid,
      brushEdit WORKING_WIDTH WORKING_HEIGHT 200 100 BLOCK_SAND initialGrid = Outcome.value g2 ∧
      (∀ i j : Int, -2 ≤ i ∧ i ≤ 2 → -2 ≤ j ∧ j ≤ 2 →
        g2 ((100 + i) * (WORKING_WIDTH : Int) + (200 + j)) = ⟨BLOCK_SAND, false⟩) ∧
      (∀ r c : Int, 0 ≤ r ∧ r < (WORKING_WIDTH : Int) → 0 ≤ c ∧ c < (WORKING_HEIGHT : Int) →
        ¬ ((-2 ≤ c - 100 ∧ c - 100 ≤ 2) ∧ (-2 ≤ r - 200 ∧ r - 200 ≤ 2)) →
        g2 (c * (WORKING_WIDTH : Int) + r) = initialGrid (c * (WORKING_WIDTH : Int) + r)) ∧
      (∀ idx : Int, ¬ (0 ≤ idx ∧ idx < ((WORKING_WIDTH * WORKING_HEIGHT : Nat) : Int)) →
        g2 idx = initialGrid idx) :=
  brush_window WORKING_WIDTH WORKING_HEIGHT BLOCK_SAND initialGrid 200 100
    (Or.inr (Or.inl rfl)) (by decide) (by decide)

/-- Claim C13 (Wood is immobile): for every grid and every frame counter, the
positions holding Wood after one update tick are exactly the positions holding
Wood before the tick; and neither the source nor the destination of a move of
the tick is a position holding Wood. -/
theorem wood_immobile (W H : Nat) (frameCounter : Nat) (g : Grid) :
    (∀ i : Int, (tick W H frameCounter g i).type = BLOCK_WOOD ↔ (g i).type = BLOCK_WOOD) ∧
    (∀ m ∈ tickMoves W H frameCounter g,
      (g m.1).type ≠ BLOCK_WOOD ∧ (g m.2).type ≠ BLOCK_WOOD) := by
  apply tickMoves_invariant W H frameCounter
    (fun st => (∀ i : Int, (st.1 i).type = BLOCK_WOOD ↔ (g i).type = BLOCK_WOOD) ∧
      (∀ m ∈ st.2, (g m.1).type ≠ BLOCK_WOOD ∧ (g m.2).type ≠ BLOCK_WOOD))
  · intro row col st hrow hcol hst _
    exact ⟨fun i => by
      rw [cellStep_wood W H frameCounter row col st.1 hrow hcol i]; exact hst.1 i, hst.2⟩
  · intro row col st p d hrow hcol hst hc
    obtain ⟨hw, hl⟩ := hst
    obtain ⟨_, _, _, _, _, hpw, hv, hstep⟩ :=
      cellMove_spec W H frameCounter row col st.1 p d hrow hcol hc
    refine ⟨fun i => ?_, ?_⟩
    · rw [← hstep, cellStep_wood W H frameCounter row col st.1 hrow hcol i]; exact hw i
    · intro m hm
      rcases List.mem_append.1 hm with h | h
      · exact hl m h
      · rw [List.mem_singleton] at h
        subst h
        exact ⟨fun h => hpw ((hw p).2 h),
          fun h => validMove_not_wood W H st.1 row col d hv ((hw d).2 h)⟩
  · exact ⟨fun i => by rw [resetProcessed_type], fun m hm => absurd hm (List.not_mem_nil m)⟩

/-- Claim C14 (Water and Acid move identically): for every grid `g` and every
frame counter, one tick on the grid with Water and Acid exchanged gives the
result of one tick on `g` with Water and Acid exchanged. -/
theorem tick_swapLiquids (W H : Nat) (frameCounter : Nat) (g : Grid) :
    tick W H frameCounter (swapLiquids g) = swapLiquids (tick W H frameCounter g) := by
  unfold tick scan
  rw [resetProcessed_swapLiquids]
  apply foldl_commute
  intro col s
  unfold scanRow
  apply foldl_commute
  intro row t
  exact cellStep_swapLiquids W H frameCounter row col t

/-- Claim C15 as amended (one move per source per tick): for every grid and
frame counter, within a single tick no grid position is the source of a move
after it has taken part in an earlier move of the tick, as source or as
destination: a position marked processed by a move is never the source of a
later move, so the sources of the moves of a tick are pairwise distinct; and
both positions of every move are marked processed at the end of the tick. -/
theorem moves_source_unprocessed (W H : Nat) (frameCounter : Nat) (g : Grid) :
    (tickMoves W H frameCounter g).Pairwise (fun a b => b.1 ≠ a.1 ∧ b.1 ≠ a.2) ∧
    ((tickMoves W H frameCounter g).map Prod.fst).Nodup ∧
    (∀ m ∈ tickMoves W H frameCounter g,
      (tick W H frameCounter g m.1).processed = true ∧
      (tick W H frameCounter g m.2).processed = true) := by
  have key := tickMoves_invariant W H frameCounter
    (fun st => (∀ m ∈ st.2, (st.1 m.1).processed = true ∧ (st.1 m.2).processed = true) ∧
      st.2.Pairwise (fun a b => b.1 ≠ a.1 ∧ b.1 ≠ a.2))
    (by
      intro row col st _ _ hst hc
      exact ⟨fun m hm => ⟨(cellMove_none W H frameCounter row col st.1 hc m.1).2 (hst.1 m hm).1,
        (cellMove_none W H frameCounter row col st.1 hc m.2).2 (hst.1 m hm).2⟩, hst.2⟩)
    (by
      intro row col st p d hrow hcol hst hc
      obtain ⟨hproc, hpair⟩ := hst
      obtain ⟨_, _, _, hp, _⟩ := cellMove_spec W H frameCounter row col st.1 p d hrow hcol hc
      have hkeep : ∀ i : Int, (st.1 i).processed = true →
          (applyMove st.1 p d i).processed = true := by
        intro i hi
        rw [applyMove_apply]
        split_ifs
        · rfl
        · rfl
        · exact hi
      constructor
      · intro m hm
        rcases List.mem_append.1 hm with h | h
        · exact ⟨hkeep _ (hproc m h).1, hkeep _ (hproc m h).2⟩
        · rw [List.mem_singleton] at h
          subst h
          constructor
          · show (applyMove st.1 p d p).processed = true
            rw [applyMove_apply, if_pos rfl]
          · show (applyMove st.1 p d d).processed = true
            rw [applyMove_apply]
            split_ifs with h1 h2
            · rfl
            · rfl
            · exact absurd rfl h2
      · rw [List.pairwise_append]
        refine ⟨hpair, List.pairwise_singleton _ _, ?_⟩
        intro a ha b hb
        rw [List.mem_singleton] at hb
        subst hb
        constructor
        · intro h
          have := (hproc a ha).1
          rw [← h, hp] at this
          exact absurd this (by decide)
        · intro h
          have := (hproc a ha).2
          rw [← h, hp] at this
          exact absurd this (by decide))
    g ⟨fun m hm => absurd hm (List.not_mem_nil m), List.Pairwise.nil⟩
  refine ⟨key.2, ?_, key.1⟩
  rw [List.Nodup, List.pairwise_map]
  exact key.2.imp (fun {a b} h => fun e => h.1 e.symm)

/-- Claim C15 as stated fails: on the program's grid with two Sand cells one
above the other at `(200, 100)` and `(200, 101)`, the position `(200, 101)` takes
part in two moves of one tick: it is the source of the move of the lower Sand
and then the destination of the move of the upper Sand. -/
theorem one_move_per_position_fails :
    ¬ (∀ p : Int, movesAt (tickMoves WORKING_WIDTH WORKING_HEIGHT 1 stackGrid) p ≤ 1) := by
  intro h
  have h2 := h (101 * 416 + 200)
  rw [stackGrid_moves] at h2
  exact absurd h2 (by decide)

/-- Claim C17 (Sand rule): for every grid and every unprocessed Sand cell at
`(x, y)`, the per-cell rule picks as destination the first of below, below-left,
below-right that exists inside the grid and holds Air, Water or Acid; it then
exchanges the materials of source and destination and marks both processed.
If none qualifies, in particular on the bottom level, the Sand stays and only
the source is marked processed.  All other cells are unchanged. -/
theorem sand_rule (W H : Nat) (frameCounter : Nat) (s : Grid) (x y : Int)
    (hx : 0 ≤ x ∧ x < W) (hy : 0 ≤ y ∧ y < H)
    (hsand : (s (y * W + x)).type = BLOCK_SAND)
    (hunprocessed : (s (y * W + x)).processed = false) :
    chooseDest W H frameCounter x y s = sandRuleDest W H s x y ∧
    (sandRuleDest W H s x y ≠ -1 →
      cellStep W H frameCounter x y s (y * W + x) =
        ⟨(s (sandRuleDest W H s x y)).type, true⟩ ∧
      cellStep W H frameCounter x y s (sandRuleDest W H s x y) = ⟨BLOCK_SAND, true⟩ ∧
      ∀ i : Int, i ≠ y * W + x → i ≠ sandRuleDest W H s x y →
        cellStep W H frameCounter x y s i = s i) ∧
    (sandRuleDest W H s x y = -1 →
      cellStep W H frameCounter x y s (y * W + x) = ⟨BLOCK_SAND, true⟩ ∧
      ∀ i : Int, i ≠ y * W + x → cellStep W H frameCounter x y s i = s i) ∧
    (y + 1 = H → sandRuleDest W H s x y = -1) := by
  have hd := chooseDest_sand W H frameCounter s x y hx hy hsand
  have hns : ¬ ((s (y * W + x)).processed = true ∨ (s (y * W + x)).type = BLOCK_AIR ∨
      (s (y * W + x)).type = BLOCK_WOOD) := by
    rw [hunprocessed, hsand]; decide
  refine ⟨hd, ?_, ?_, ?_⟩
  · intro hne
    have hv : ValidMove W H s x y (sandRuleDest W H s x y) := by
      rcases chooseDest_spec W H frameCounter s x y hx hy with h | h
      · rw [hd] at h; exact absurd h hne
      · rw [hd] at h; exact h
    have hnp := validMove_ne_pos W H s x y _ hx hv
    rw [cellStep_eq, if_neg hns, hd, if_neg hne]
    refine ⟨?_, ?_, ?_⟩
    · rw [applyMove_apply, if_pos rfl]
    · rw [applyMove_apply, if_neg hnp, if_pos rfl, hsand]
    · intro i h1 h2
      rw [applyMove_apply, if_neg h1, if_neg h2]
  · intro he
    rw [cellStep_eq, if_neg hns, hd, if_pos he]
    refine ⟨?_, ?_⟩
    · rw [setProcessed_apply, if_pos rfl, hsand]
    · intro i h1
      rw [setProcessed_apply, if_neg h1]
  · intro hbottom
    unfold sandRuleDest
    have hno : ∀ r : Int, sandCanEnter W H s r (y + 1) = false := by
      intro r
      cases h : sandCanEnter W H s r (y + 1)
      · rfl
      · have := ((sandCanEnter_iff W H s r (y + 1)).1 h).2.1
        omega
    simp [hno]

theorem sandGrid_source :
    sandGrid (100 * (WORKING_WIDTH : Int) + 200) = ⟨BLOCK_SAND, false⟩ := by
  rw [WORKING_WIDTH_eq]; rfl

/-- An instance of claim C17 on the program's grid: the Sand at `(200, 100)` of
the grid `sandGrid`, with Air all around it. -/
theorem sand_rule_witness :
    chooseDest WORKING_WIDTH WORKING_HEIGHT 1 200 100 sandGrid =
      sandRuleDest WORKING_WIDTH WORKING_HEIGHT sandGrid 200 100 ∧
    (sandRuleDest WORKING_WIDTH WORKING_HEIGHT sandGrid 200 100 ≠ -1 →
      cellStep WORKING_WIDTH WORKING_HEIGHT 1 200 100 sandGrid
          (100 * (WORKING_WIDTH : Int) + 200) =
        ⟨(sandGrid (sandRuleDest WORKING_WIDTH WORKING_HEIGHT sandGrid 200 100)).type, true⟩ ∧
      cellStep WORKING_WIDTH WORKING_HEIGHT 1 200 100 sandGrid
          (sandRuleDest WORKING_WIDTH WORKING_HEIGHT sandGrid 200 100) = ⟨BLOCK_SAND, true⟩ ∧
      ∀ i : Int, i ≠ 100 * (WORKING_WIDTH : Int) + 200 →
        i ≠ sandRuleDest WORKING_WIDTH WORKING_HEIGHT sandGrid 200 100 →
        cellStep WORKING_WIDTH WORKING_HEIGHT 1 200 100 sandGrid i = sandGrid i) ∧
    (sandRuleDest WORKING_WIDTH WORKING_HEIGHT sandGrid 200 100 = -1 →
      cellStep WORKING_WIDTH WORKING_HEIGHT 1 200 100 sandGrid
          (100 * (WORKING_WIDTH : Int) + 200) = ⟨BLOCK_SAND, true⟩ ∧
      ∀ i : Int, i ≠ 100 * (WORKING_WIDTH : Int) + 200 →
        cellStep WORKING_WIDTH WORKING_HEIGHT 1 200 100 sandGrid i = sandGrid i) ∧
    ((100 : Int) + 1 = (WORKING_HEIGHT : Int) →
      sandRuleDest WORKING_WIDTH WORKING_HEIGHT sandGrid 200 100 = -1) :=
  sand_rule WORKING_WIDTH WORKING_HEIGHT 1 sandGrid 200 100 (by decide) (by decide)
    (by rw [sandGrid_source]) (by rw [sandGrid_source])

/-- Claim C18 (liquid rule): for every grid, frame counter `f` and Water or Acid
cell at `(x, y)`, the destination chosen by the per-cell rule is: below if it
exists and is Air; otherwise, the preferred side being left exactly when
`x + y + f` is even, the preferred diagonal below if it exists and is Air, else
the other diagonal below if it exists and is Air, else the result of `TrySlide`
in the preferred direction, else that of `TrySlide` in the opposite direction,
else none.  Whenever a destination is chosen, it holds Air. -/
theorem liquid_rule (W H : Nat) (frameCounter : Nat) (s : Grid) (x y : Int)
    (hx : 0 ≤ x ∧ x < W) (hy : 0 ≤ y ∧ y < H)
    (hliquid : (s (y * W + x)).type = BLOCK_WATER ∨ (s (y * W + x)).type = BLOCK_ACID) :
    chooseDest W H frameCounter x y s = liquidRuleDest W H frameCounter s x y ∧
    (chooseDest W H frameCounter x y s ≠ -1 →
      (s (chooseDest W H frameCounter x y s)).type = BLOCK_AIR) := by
  refine ⟨chooseDest_liquid W H frameCounter s x y hx hy hliquid, ?_⟩
  intro hne
  rcases chooseDest_spec W H frameCounter s x y hx hy with h | h
  · exact absurd h hne
  · obtain ⟨r, c, _, _, _, hcase⟩ := h
    rcases hcase with ⟨_, _, hcontent⟩ | ⟨_, _, _, ha⟩
    · rcases hcontent with ⟨hs, _⟩ | ⟨_, ha⟩
      · rcases hliquid with hl | hl <;> rw [hl] at hs <;> exact absurd hs (by decide)
      · exact ha
    · exact ha

theorem floorGrid_source :
    floorGrid (100 * (WORKING_WIDTH : Int) + 200) = ⟨BLOCK_WATER, false⟩ := by
  rw [WORKING_WIDTH_eq]; rfl

/-- An instance of claim C18 on the program's grid: the Water at `(200, 100)` of
the grid `floorGrid`, lying on a Wood floor. -/
theorem liquid_rule_witness :
    chooseDest WORKING_WIDTH WORKING_HEIGHT 1 200 100 floorGrid =
      liquidRuleDest WORKING_WIDTH WORKING_HEIGHT 1 floorGrid 200 100 ∧
    (chooseDest WORKING_WIDTH WORKING_HEIGHT 1 200 100 floorGrid ≠ -1 →
      (floorGrid (chooseDest WORKING_WIDTH WORKING_HEIGHT 1 200 100 floorGrid)).type =
        BLOCK_AIR) :=
  liquid_rule WORKING_WIDTH WORKING_HEIGHT 1 floorGrid 200 100 (by decide) (by decide)
    (Or.inl (by rw [floorGrid_source]))

/-- Claim C19 (index safety of the tick): the macros give `W = 416`, `H = 234`
and `TOTAL_WORKING_PIXELS = W * H = 97344`; for every grid and frame counter,
every array index read or written during one update tick on the program's grid
(the indices of the reset loop, `pos`, `under`, `underLeft` and `underRight`
when not `-1`, the indices visited by `TrySlide`, and `dest` when not `-1`) lies
in `[0, W * H)`; and the expression `col * WORKING_WIDTH + row`, after macro
expansion, equals `col * 416 + row` for every in-grid `(row, col)`. -/
theorem tick_index_safety :
    (WORKING_WIDTH = 416 ∧ WORKING_HEIGHT = 234 ∧
      TOTAL_WORKING_PIXELS = WORKING_WIDTH * WORKING_HEIGHT ∧ TOTAL_WORKING_PIXELS = 97344) ∧
    (∀ (frameCounter : Nat) (g : Grid),
      ∀ idx ∈ tickIndices WORKING_WIDTH WORKING_HEIGHT frameCounter g,
        0 ≤ idx ∧ idx < 97344) ∧
    (∀ row col : Int, 0 ≤ row ∧ row < 416 → 0 ≤ col ∧ col < 234 →
      posExpr row col = col * 416 + row) := by
  refine ⟨⟨rfl, rfl, rfl, rfl⟩, ?_, fun row col _ hcol => posExpr_eq row col hcol.1⟩
  intro frameCounter g idx h
  have := tickIndices_range WORKING_WIDTH WORKING_HEIGHT frameCounter g idx h
  have e : ((WORKING_WIDTH * WORKING_HEIGHT : Nat) : Int) = 97344 := rfl
  rw [e] at this
  exact this

theorem validMove_local (W H : Nat) (s : Grid) (row col dest : Int)
    (hrow : 0 ≤ row ∧ row < W) (hcol : 0 ≤ col ∧ col < H)
    (h : ValidMove W H s row col dest) : LocalMove W H (col * W + row, dest) := by
  obtain ⟨r, c, hd, hr, hc, hcase⟩ := h
  refine ⟨row, col, r - row, hrow, hcol, rfl, ⟨by omega, by omega⟩, ?_⟩
  have e : row + (r - row) = r := by ring
  rcases hcase with ⟨hc1, hnear, _⟩ | ⟨hc0, hdist, _⟩
  · left
    refine ⟨by omega, ?_, abs_le.2 ⟨by omega, by omega⟩⟩
    show dest = (col + 1) * W + (row + (r - row))
    rw [e, hd, hc1]
  · right
    refine ⟨?_, hdist.1, hdist.2⟩
    show dest = col * W + (row + (r - row))
    rw [e, hd, hc0]

/-- Claim C20 (move locality, no wrap-around): for every grid and frame counter,
every move made during a tick from a source `(x, y)` has a destination that is
either one level below at horizontal offset `-1`, `0` or `+1`, or on the same
level at horizontal distance between 1 and 8; the destination is a cell of the
grid with `0 ≤ x + d < W`, so the move does not cross the left or right edge. -/
theorem moves_local (W H : Nat) (frameCounter : Nat) (g : Grid) (m : Int × Int)
    (hm : m ∈ tickMoves W H frameCounter g) : LocalMove W H m := by
  have key := tickMoves_invariant W H frameCounter (fun st => ∀ m ∈ st.2, LocalMove W H m)
    (fun row col st _ _ hst _ => hst)
    (by
      intro row col st p d hrow hcol hst hc m hm
      rcases List.mem_append.1 hm with h | h
      · exact hst m h
      · rw [List.mem_singleton] at h
        subst h
        obtain ⟨hp, _, _, _, _, _, hv, _⟩ :=
          cellMove_spec W H frameCounter row col st.1 p d hrow hcol hc
        rw [hp]
        exact validMove_local W H st.1 row col d hrow hcol hv)
    g (fun m hm => absurd hm (List.not_mem_nil m))
  exact key m hm

theorem stackGrid_first_move :
    ((101 * 416 + 200, 102 * 416 + 200) : Int × Int) ∈
      tickMoves WORKING_WIDTH WORKING_HEIGHT 1 stackGrid := by
  rw [stackGrid_moves]
  exact List.mem_cons_self _ _

/-- An instance of claim C20 on the program's grid: the first move of a tick on
two Sand cells one above the other. -/
theorem moves_local_witness :
    ((101 * 416 + 200, 102 * 416 + 200) : Int × Int) ∈
      tickMoves WORKING_WIDTH WORKING_HEIGHT 1 stackGrid ∧
    LocalMove WORKING_WIDTH WORKING_HEIGHT (101 * 416 + 200, 102 * 416 + 200) :=
  ⟨stackGrid_first_move,
    moves_local WORKING_WIDTH WORKING_HEIGHT 1 stackGrid _ stackGrid_first_move⟩

end SandAutomata
